import Mathlib

/-
Verification development for the mmetl Slack-export merge/transform core
(`services/slack/merge.go`, `services/slack/intermediate.go`).

The Go code is shallowly embedded: Go structs become Lean structures, Go
maps become insertion-ordered association lists (`List (String × α)`),
Go slices become `List`, `int64`/`uint32`/`uint16` values become `Int`/`Nat`
(no arithmetic in scope ever approaches the word size, so no wrap-around
modelling is needed), and fallible Go functions returning `(T, error)`
become `Except MergeError T`.
-/

set_option autoImplicit false

/-- Mirrors `model.ChannelType` from the mattermost-server model package
(an external dependency): the four channel visibility types `"O"`, `"P"`,
`"G"`, `"D"`. -/
inductive ChannelType where
  | open_
  | private_
  | group
  | direct
deriving DecidableEq

/-- Mirrors the `SlackChannelSub` struct used for the `Purpose` and `Topic`
fields of `SlackChannel` (declared in the repository outside `src/`; the
transform reads its `Value` field and `mergeChannel` compares it with
`reflect.DeepEqual`, so a value-carrying record suffices). -/
structure SlackChannelSub where
  value : String
deriving DecidableEq

/-- Mirrors `SlackChannel` with the fields read by `merge.go` and
`intermediate.go`: `Id`, `Name`, `Creator`, `Members`, `Purpose`, `Topic`,
`Type`. -/
structure SlackChannel where
  id : String
  name : String
  creator : String
  members : List String
  purpose : SlackChannelSub
  topic : SlackChannelSub
  type : ChannelType
deriving DecidableEq

/-- Mirrors the `Profile` sub-struct of `SlackUser` with the fields read by
the merge and transform code (`FirstName`, `LastName`, `Title`, `Email`,
`BotID`). -/
structure SlackProfile where
  firstName : String
  lastName : String
  title : String
  email : String
  botID : String
deriving DecidableEq

/-- Mirrors `SlackUser` with the fields read by `merge.go` and
`intermediate.go`: `Id`, `Username`, `IsBot`, `Profile`. `mergeUser`
compares whole records with `reflect.DeepEqual`, which on this embedding is
structural equality. -/
structure SlackUser where
  id : String
  username : String
  isBot : Bool
  profile : SlackProfile
deriving DecidableEq

/-- A JSON document, modelling the `map[string]interface{}` /
`[]interface{}` values produced by `encoding/json.Unmarshal` in
`postOriginalEquivalent`.  Numbers are restricted to integers: every JSON
number appearing in the properties compared by the merge is integral, and
none of the claims turns on float formatting. -/
inductive Json where
  | null
  | bool (b : Bool)
  | num (n : Int)
  | str (s : String)
  | arr (elems : List Json)
  | obj (fields : List (String × Json))

/-- The raw-original capture of a Slack post.  In the Go code
`SlackPost.Original` is the verbatim JSON string; the only operation ever
applied to it is `json.Unmarshal` into a `map[string]interface{}` followed
by key-stripping and re-marshalling (`postOriginalEquivalent`).  The
embedding therefore represents the capture by its parse result under the
external `encoding/json` library: `valid fields` is a capture that
unmarshals to the top-level object `fields`, and `invalid s` is a capture
`s` on which `json.Unmarshal` returns an error. -/
inductive RawOriginal where
  | invalid (s : String)
  | valid (fields : List (String × Json))

/-- Returns `true` iff the capture unmarshals as a JSON object. -/
def RawOriginal.isValid : RawOriginal → Bool
  | .invalid _ => false
  | .valid _ => true

/-- Mirrors the `Comment` sub-struct of `SlackPost` with the fields read by
the file-comment branch of `TransformPosts` (`User`, `Comment`). -/
structure SlackComment where
  user : String
  comment : String
deriving DecidableEq

/-- Mirrors `SlackPost` (declared in the repository outside `src/`) with
the fields read by `merge.go` and `intermediate.go`: the timestamp string
(identity key), thread-root timestamp, author/bot ids, text, type/subtype
discriminator, optional file comment, and the raw-original capture. -/
structure SlackPost where
  user : String
  type : String
  subType : String
  text : String
  timeStamp : String
  threadTS : String
  botId : String
  comment : Option SlackComment
  original : RawOriginal

/-- Mirrors the subset of `archive/zip.File` (really its embedded
`FileHeader`) read by `mergeZipFile`: `NonUTF8`, `Name`, `CRC32`,
`UncompressedSize64`, `Extra` (as a byte list), `ExternalAttrs`, plus
`Comment` as a representative of the fields the merge deliberately allows
to differ (so that "the first operand is retained" is observable). -/
structure ZipFile where
  nonUTF8 : Bool
  name : String
  comment : String
  crc32 : Nat
  uncompressedSize64 : Nat
  extra : List Nat
  externalAttrs : Nat
deriving DecidableEq

/-- Mirrors `SlackExport`: team name, the five channel collections, users,
the channel-name-keyed post map and the id-keyed upload map.  Go maps are
embedded as insertion-ordered association lists. -/
structure SlackExport where
  teamName : String
  channels : List SlackChannel
  publicChannels : List SlackChannel
  privateChannels : List SlackChannel
  groupChannels : List SlackChannel
  directChannels : List SlackChannel
  users : List SlackUser
  posts : List (String × List SlackPost)
  uploads : List (String × ZipFile)

/-- First-match lookup in an association list, the embedding of reading a
Go map (`m[k]` with the `, ok` form). -/
def lookupA {α : Type} : List (String × α) → String → Option α
  | [], _ => none
  | (k, v) :: rest, key => if k = key then some v else lookupA rest key

/-- The embedding of a Go map write `m[k] = v`: replace the value at the
first occurrence of the key, or append a fresh entry. -/
def setA {α : Type} : List (String × α) → String → α → List (String × α)
  | [], key, v => [(key, v)]
  | (k, v') :: rest, key, v =>
    if k = key then (k, v) :: rest else (k, v') :: setA rest key v

/-- Splits a character list at the first `'.'`, returning the prefix and,
when a dot is present, the remainder after it. -/
def splitFirstDot : List Char → List Char × Option (List Char)
  | [] => ([], none)
  | c :: rest =>
    if c = '.' then ([], some rest)
    else
      let (pre, post) := splitFirstDot rest
      (c :: pre, post)

/-- The numeric value of a digit list, `none` if any character is not a
decimal digit. -/
def digitsToNat : List Char → Option Nat
  | [] => some 0
  | c :: rest =>
    if c.isDigit then
      match digitsToNat rest with
      | some n => some ((c.toNat - 48) * 10 ^ rest.length + n)
      | none => none
    else none

/-- Modelled from the spec: the parsing half of the Timestamp Normalizer
(`SlackConvertTimeStamp`, whose implementation lives in the repository
outside `src/`; only its test vector is available).  Spec §4.1: parse the
string as a decimal number of seconds, zero fractional digits allowed and
a trailing dot allowed meaning zero fraction.  Returns the integer part
and the fractional digit list, or `none` on parse failure. -/
def parseSlackTS (s : String) : Option (Nat × List Char) :=
  let (intCs, fracCs?) := splitFirstDot s.data
  if intCs = [] then none
  else
    match digitsToNat intCs with
    | none => none
    | some ip =>
      let fracCs := fracCs?.getD []
      if fracCs.all Char.isDigit then some (ip, fracCs) else none

/-- Half-up rounding of `frac/10^n * 1000` where `frac` is the value of the
`n` fractional digits: `⌊frac·1000/10^n + 1/2⌋`. -/
def roundFracToMillis (fracDigits : List Char) : Nat :=
  let n := fracDigits.length
  let fv := (digitsToNat fracDigits).getD 0
  (2000 * fv + 10 ^ n) / (2 * 10 ^ n)

/-- Modelled from the spec: `SlackConvertTimeStamp` (§4.1 `ToMilliseconds`),
whose implementation lives in the repository outside `src/`.  On parse
failure it returns the sentinel `1`; otherwise `round(value * 1000)` with
half-up rounding.  Validated below against the `TestSlackConvertTimeStamp`
vector from `export_test.go`. -/
def slackConvertTimeStamp (s : String) : Int :=
  match parseSlackTS s with
  | none => 1
  | some (ip, fracCs) => (ip * 1000 + roundFracToMillis fracCs : Nat)


/-- Mirrors `IntermediateUser` (`intermediate.go`). -/
structure IntermediateUser where
  id : String
  username : String
  firstName : String
  lastName : String
  position : String
  email : String
  password : String
  memberships : List String
deriving DecidableEq

/-- Mirrors `IntermediateChannel` (`intermediate.go`). -/
structure IntermediateChannel where
  id : String
  originalName : String
  name : String
  displayName : String
  members : List String
  membersUsernames : List String
  purpose : String
  header : String
  topic : String
  type : ChannelType
deriving DecidableEq

/-- Mirrors `IntermediatePost` (`intermediate.go`) with the fields the
thread-assembly claims read; `Props`, `Attachments` and `Reactions` are
not involved in any claim and are omitted.  An inductive is used because
the Go struct is recursive through `Replies`. -/
inductive IntermediatePost where
  | mk (user channel message : String) (createAt : Int)
      (replies : List IntermediatePost) (isDirect : Bool)
      (channelMembers : List String)

def IntermediatePost.user : IntermediatePost → String
  | .mk u _ _ _ _ _ _ => u

def IntermediatePost.channel : IntermediatePost → String
  | .mk _ c _ _ _ _ _ => c

def IntermediatePost.message : IntermediatePost → String
  | .mk _ _ m _ _ _ _ => m

def IntermediatePost.createAt : IntermediatePost → Int
  | .mk _ _ _ t _ _ _ => t

def IntermediatePost.replies : IntermediatePost → List IntermediatePost
  | .mk _ _ _ _ rs _ _ => rs

def IntermediatePost.isDirect : IntermediatePost → Bool
  | .mk _ _ _ _ _ d _ => d

def IntermediatePost.channelMembers : IntermediatePost → List String
  | .mk _ _ _ _ _ _ ms => ms

/-- Functional update of `CreateAt` (the Go code mutates the field). -/
def IntermediatePost.withCreateAt : IntermediatePost → Int → IntermediatePost
  | .mk u c m _ rs d ms, t => .mk u c m t rs d ms

/-- Functional update of `Replies`. -/
def IntermediatePost.withReplies : IntermediatePost → List IntermediatePost → IntermediatePost
  | .mk u c m t _ d ms, rs => .mk u c m t rs d ms

/-- Functional update of `IsDirect` and `ChannelMembers`. -/
def IntermediatePost.withDirect : IntermediatePost → Bool → List String → IntermediatePost
  | .mk u c m t rs _ _, d, ms => .mk u c m t rs d ms

mutual

/-- All creation timestamps in a post tree: the post's own `CreateAt`
followed by those of its replies, recursively. -/
def IntermediatePost.allCreateAts : IntermediatePost → List Int
  | .mk _ _ _ t rs _ _ => t :: allCreateAtsList rs

/-- All creation timestamps in a list of post trees. -/
def allCreateAtsList : List IntermediatePost → List Int
  | [] => []
  | p :: ps => p.allCreateAts ++ allCreateAtsList ps

end

/-- Fuel-bounded version of the collision-resolution loop of
`AddPostToThreads`: increment the candidate timestamp while it is present
in the used set.  `nextFree` supplies enough fuel for the loop to reach a
free value, so this computes exactly what the unbounded Go `for` loop
computes. -/
def nextFreeFuel : Nat → Finset Int → Int → Int
  | 0, _, t => t
  | n + 1, used, t => if t ∈ used then nextFreeFuel n used (t + 1) else t

/-- The timestamp actually assigned to a post by the collision-resolution
loop in `AddPostToThreads`: the first value `≥ t` absent from `used`. -/
def nextFree (used : Finset Int) (t : Int) : Int :=
  nextFreeFuel (used.card + 1) used t

/-- Proof-side measure for the collision loop: how many used timestamps
lie at or above the candidate. -/
def pending (used : Finset Int) (t : Int) : Nat :=
  (used.filter fun x => t ≤ x).card

/-- The per-channel state threaded through `AddPostToThreads`: the
`threads` map from thread-root timestamp string to root post, and the
channel-scoped set of already-assigned millisecond timestamps. -/
structure ThreadState where
  threads : List (String × IntermediatePost)
  timestamps : Finset Int

/-- The direct/group membership echo at the top of `AddPostToThreads`
(`intermediate.go` lines 493-498). -/
def postWithMembers (post : IntermediatePost)
    (channel : IntermediateChannel) : IntermediatePost :=
  if channel.type = .direct ∨ channel.type = .group then
    post.withDirect true channel.membersUsernames
  else
    post.withDirect false post.channelMembers

/-- The branch structure of `AddPostToThreads` after collision resolution
(`intermediate.go` lines 510-535): a reply is appended to its root's
reply list (the Go code mutates the root held in the map, which on the
value-level embedding is an update at its key) and dropped when the root
is missing; a root is stored under its key, overwriting any existing
root. -/
def threadInsert (original : SlackPost) (post : IntermediatePost)
    (threads : List (String × IntermediatePost)) :
    List (String × IntermediatePost) :=
  if original.threadTS ≠ "" ∧ original.threadTS ≠ original.timeStamp then
    match lookupA threads original.threadTS with
    | none => threads
    | some rootPost =>
      setA threads original.threadTS
        (rootPost.withReplies (rootPost.replies ++ [post]))
  else if original.timeStamp = original.threadTS then
    setA threads original.threadTS post
  else
    setA threads original.timeStamp post

/-- Embedding of `AddPostToThreads` (`intermediate.go` lines 491-535):
set the direct/group membership echo, bump `CreateAt` until it is unused
and record it in the channel-scoped timestamp set, then insert the post
into the threads map. -/
def addPostToThreads (original : SlackPost) (post : IntermediatePost)
    (channel : IntermediateChannel) (st : ThreadState) : ThreadState :=
  let post := postWithMembers post channel
  let newCreate := nextFree st.timestamps post.createAt
  { threads := threadInsert original (post.withCreateAt newCreate) st.threads,
    timestamps := insert newCreate st.timestamps }

/-- Embedding of the post-construction step shared by every supported post
kind in `TransformPosts` / `CreateAndAddPostToThreads`: build a fresh
intermediate post (empty reply list) whose `CreateAt` comes from the
Timestamp Normalizer, then hand it to `AddPostToThreads`.  Author
resolution is abstracted into `resolve` (it never touches timestamps or
threading; placeholder synthesis is modelled separately for C9), and the
props-size bookkeeping is omitted (it only drops a post before
`AddPostToThreads` is reached). -/
def createAndAddPostToThreads (resolve : String → String) (post : SlackPost)
    (channel : IntermediateChannel) (st : ThreadState) : ThreadState :=
  let createAt := slackConvertTimeStamp post.timeStamp
  let newPost : IntermediatePost :=
    .mk (resolve post.user) channel.name post.text createAt [] false []
  addPostToThreads post newPost channel st

/-- The per-channel post loop of `TransformPosts`: posts are processed in
their (already microsecond-sorted) order, starting from an empty threads
map and an empty timestamp set. -/
def processChannelPosts (resolve : String → String)
    (channel : IntermediateChannel) (posts : List SlackPost) : ThreadState :=
  posts.foldl (fun st p => createAndAddPostToThreads resolve p channel st)
    { threads := [], timestamps := ∅ }

/-- All creation timestamps of the intermediate posts a channel emits
(the values collected from the threads map at the end of the channel loop,
each root together with its reply tree). -/
def threadsCreateAts (threads : List (String × IntermediatePost)) : List Int :=
  allCreateAtsList (threads.map Prod.snd)

/-- Value of `model.ChannelNameMaxLength` from the mattermost-server model package
(an external dependency). -/
def channelNameMaxLength : Nat := 64

/-- Value of `model.ChannelDisplayNameMaxRunes` (external mattermost constant). -/
def channelDisplayNameMaxRunes : Nat := 64

/-- Value of `model.ChannelPurposeMaxRunes` (external mattermost constant). -/
def channelPurposeMaxRunes : Nat := 250

/-- Value of `model.ChannelHeaderMaxRunes` (external mattermost constant). -/
def channelHeaderMaxRunes : Nat := 1024

/-- Embedding of `strings.Trim(s, "_-")`: remove leading and trailing underscores and
dashes. -/
def trimDashUnderscore (s : String) : String :=
  let isTrimmed : Char → Bool := fun c => c = '_' ∨ c = '-'
  ⟨((s.data.dropWhile isTrimmed).reverse.dropWhile isTrimmed).reverse⟩

/-- The UTF-8 byte length of a string, the embedding of Go's `len` on
strings. -/
def goLen (s : String) : Nat := s.utf8ByteSize

/-- Byte-bounded prefix used for `c.Name[0:model.ChannelNameMaxLength]`:
keep characters while the accumulated UTF-8 size stays within the bound
(the claims never exercise a cut inside a multi-byte rune). -/
def takeBytes (bound : Nat) : List Char → List Char
  | [] => []
  | c :: cs => if c.utf8Size ≤ bound then c :: takeBytes (bound - c.utf8Size) cs else []

/-- Modelled from the spec: `truncateRunes` (declared in the repository
outside `src/`), §4.5: length-truncation by rune count. -/
def truncateRunes (s : String) (n : Nat) : String := ⟨s.data.take n⟩

/-- Modelled from the spec: `isValidChannelNameCharacters` (declared in
the repository outside `src/`), §4.5: whether the name contains only
characters allowed in a target-platform channel handle (lowercase ASCII
letters, digits, dashes and underscores). -/
def isValidChannelNameCharacters (s : String) : Bool :=
  s.data.all fun c => c.isLower ∨ c.isDigit ∨ c = '-' ∨ c = '_'

/-- Embedding of `strings.ToLower` restricted to ASCII (channel ids are ASCII). -/
def goToLower (s : String) : String := ⟨s.data.map Char.toLower⟩

/-- Embedding of `IntermediateChannel.Sanitise` (`intermediate.go` lines
41-76).  Returns the sanitised channel together with the list of warning
messages emitted (the injected-reporter view of the `logger.Warnf`
calls). -/
def sanitise (c : IntermediateChannel) : IntermediateChannel × List String :=
  if c.type = .direct then (c, [])
  else
    let warnings : List String := []
    let name := trimDashUnderscore c.name
    let (name, warnings) :=
      if goLen name > channelNameMaxLength then
        (⟨takeBytes channelNameMaxLength name.data⟩, warnings ++ ["channel handle exceeds the maximum length"])
      else (name, warnings)
    let name := if goLen name = 1 then "slack-channel-" ++ name else name
    let name := if isValidChannelNameCharacters name then name else goToLower c.id
    let displayName := trimDashUnderscore c.displayName
    let (displayName, warnings) :=
      if displayName.length > channelDisplayNameMaxRunes then
        (truncateRunes displayName channelDisplayNameMaxRunes,
         warnings ++ ["channel display name exceeds the maximum length"])
      else (displayName, warnings)
    let displayName :=
      if goLen displayName = 1 then "slack-channel-" ++ displayName else displayName
    let (purpose, warnings) :=
      if c.purpose.length > channelPurposeMaxRunes then
        (truncateRunes c.purpose channelPurposeMaxRunes,
         warnings ++ ["channel purpose exceeds the maximum length"])
      else (c.purpose, warnings)
    let (header, warnings) :=
      if c.header.length > channelHeaderMaxRunes then
        (truncateRunes c.header channelHeaderMaxRunes,
         warnings ++ ["channel header exceeds the maximum length"])
      else (c.header, warnings)
    ({ c with name := name, displayName := displayName, purpose := purpose,
              header := header }, warnings)

/-- Embedding of `ApplyUserOverrides` (`intermediate.go` lines 172-207).
The override table is the `UserOverrides` map keyed by username.  The Go
code updates the six fields one after the other; no update reads a field
another update writes (each dash check reads the value its own update just
assigned), so the sequence is embedded as a single record update with the
dash check inlined on the assigned value. -/
def applyUserOverrides (overrides : List (String × IntermediateUser))
    (user : IntermediateUser) : IntermediateUser :=
  if overrides.length = 0 then user
  else
    match lookupA overrides user.username with
    | none => user
    | some o =>
      { user with
        username := if o.username ≠ "" then o.username else user.username,
        firstName :=
          if o.firstName ≠ "" then
            (if o.firstName = "-" then "" else o.firstName)
          else user.firstName,
        lastName :=
          if o.lastName ≠ "" then
            (if o.lastName = "-" then "" else o.lastName)
          else user.lastName,
        position :=
          if o.position ≠ "" then
            (if o.position = "-" then "" else o.position)
          else user.position,
        email := if o.email ≠ "" then o.email else user.email,
        password := if o.password ≠ "" then o.password else user.password }

/-- Embedding of `ApplyChannelOverrides` (`intermediate.go` lines 307-345).
The override table is the `ChannelOverrides` map keyed by channel name.
As with `applyUserOverrides`, the five sequential per-field updates are
independent and are embedded as a single record update. -/
def applyChannelOverrides (overrides : List (String × IntermediateChannel))
    (channel : IntermediateChannel) : IntermediateChannel :=
  if overrides.length = 0 then channel
  else
    match lookupA overrides channel.name with
    | none => channel
    | some o =>
      { channel with
        name :=
          if o.name ≠ "" then
            (if o.name = "-" then "" else o.name)
          else channel.name,
        displayName :=
          if o.displayName ≠ "" then
            (if o.displayName = "-" then "" else o.displayName)
          else channel.displayName,
        purpose :=
          if o.purpose ≠ "" then
            (if o.purpose = "-" then "" else o.purpose)
          else channel.purpose,
        header :=
          if o.header ≠ "" then
            (if o.header = "-" then "" else o.header)
          else channel.header,
        topic :=
          if o.topic ≠ "" then
            (if o.topic = "-" then "" else o.topic)
          else channel.topic }

/-- Embedding of `CreateIntermediateUser` (`intermediate.go` lines
655-667): synthesize a "Deleted User" placeholder for a missing id and
index it under that id.  The generated `model.NewId()` password is passed
in as `freshPassword` (it comes from an external RNG). -/
def createIntermediateUser (overrides : List (String × IntermediateUser))
    (freshPassword : String) (userID : String)
    (users : List (String × IntermediateUser)) : List (String × IntermediateUser) :=
  let newUser : IntermediateUser :=
    { id := userID, username := goToLower userID, firstName := "Deleted",
      lastName := "User", position := "", email := userID ++ "@local",
      password := freshPassword, memberships := [] }
  let newUser := applyUserOverrides overrides newUser
  setA users userID newUser

/-- Embedding of the file-comment branch of `TransformPosts`
(`intermediate.go` lines 871-906), up to the point where the new post
would be handed to `AddPostToThreads`: returns the updated user index and
the constructed post (or `none` when the branch skips the post).  The
lookup key is `post.Comment.User`, but on a miss the placeholder is
created and fetched under `post.User`. -/
def transformFileCommentPost (overrides : List (String × IntermediateUser))
    (freshPassword : String) (users : List (String × IntermediateUser))
    (channel : IntermediateChannel) (post : SlackPost) :
    List (String × IntermediateUser) × Option IntermediatePost :=
  match post.comment with
  | none => (users, none)
  | some c =>
    if c.user = "" then (users, none)
    else
      let mkPost : IntermediateUser → IntermediatePost := fun author =>
        .mk author.username channel.name c.comment
          (slackConvertTimeStamp post.timeStamp) [] false []
      match lookupA users c.user with
      | some author => (users, some (mkPost author))
      | none =>
        let users := createIntermediateUser overrides freshPassword post.user users
        match lookupA users post.user with
        | some author => (users, some (mkPost author))
        | none => (users, none)

/-- Embedding of `sort.Strings`: sort a string slice ascending.  Go compares strings
byte-wise; UTF-8 preserves codepoint order, so byte-wise order is exactly
lexicographic order on the character lists. -/
def sortStrings (xs : List String) : List String :=
  List.insertionSort (fun a b => a.data ≤ b.data) xs

/-- Embedding of `delete(m, key)` on an unmarshalled JSON object. -/
def eraseKeyJ (fields : List (String × Json)) (key : String) : List (String × Json) :=
  fields.filter fun kv => kv.1 ≠ key

/-- The per-`blocks`-entry scrub of `postOriginalEquivalent`: delete the
`block_id` key of an entry that is a JSON object, leave any other entry
alone. -/
def scrubBlock : Json → Json
  | .obj fields => .obj (eraseKeyJ fields "block_id")
  | j => j

/-- The document scrub performed by `postOriginalEquivalent` on each
parsed `Original`: delete top-level `last_read` and `subscribed`, and
delete `block_id` from each object entry of the top-level `blocks` array
(when `blocks` is indeed an array). -/
def scrubOriginal (fields : List (String × Json)) : List (String × Json) :=
  let fields := eraseKeyJ (eraseKeyJ fields "last_read") "subscribed"
  match lookupA fields "blocks" with
  | some (.arr blocks) => setA fields "blocks" (.arr (blocks.map scrubBlock))
  | _ => fields

/-- Sort an object's fields by key, as `encoding/json.Marshal` does when
serializing a `map[string]interface{}`. -/
def sortByKey (fields : List (String × Json)) : List (String × Json) :=
  List.insertionSort (fun a b => a.1.data ≤ b.1.data) fields

mutual

/-- Key-sorted canonical form of a JSON value, modelling the key ordering
`encoding/json.Marshal` applies to every (nested) map. -/
def Json.canon : Json → Json
  | .obj fields => .obj (sortByKey (canonFields fields))
  | .arr elems => .arr (canonArr elems)
  | j => j

def canonArr : List Json → List Json
  | [] => []
  | x :: xs => x.canon :: canonArr xs

def canonFields : List (String × Json) → List (String × Json)
  | [] => []
  | (k, v) :: kvs => (k, v.canon) :: canonFields kvs

end

mutual

/-- Serialization of a JSON value, modelling `encoding/json.Marshal` on
values produced by `Unmarshal` (string escaping is elided: no string in
scope contains a character that `Marshal` escapes). -/
def Json.serialize : Json → String
  | .null => "null"
  | .bool true => "true"
  | .bool false => "false"
  | .num n => toString n
  | .str s => "\"" ++ s ++ "\""
  | .arr elems => "[" ++ serializeArr elems ++ "]"
  | .obj fields => "\x7b" ++ serializeObj fields ++ "\x7d"

def serializeArr : List Json → String
  | [] => ""
  | [x] => x.serialize
  | x :: xs => x.serialize ++ "," ++ serializeArr xs

def serializeObj : List (String × Json) → String
  | [] => ""
  | [(k, v)] => "\"" ++ k ++ "\":" ++ v.serialize
  | (k, v) :: kvs => "\"" ++ k ++ "\":" ++ v.serialize ++ "," ++ serializeObj kvs

end

/-- The string `json.Marshal` produces for a scrubbed `Original`
document. -/
def serializeScrubbed (fields : List (String × Json)) : String :=
  (Json.obj (scrubOriginal fields)).canon.serialize

/-- The merge conflict errors produced by `merge.go`, one constructor per
`errors.Errorf`/`errors.New` site (payloads are the formatted values; the
two post conflicts carry the shared timestamp key that identified the
pair). -/
inductive MergeError where
  | noExports
  | teamMismatch (a b : String)
  | channelIdConflict (a b : String)
  | channelNameConflict (a b : String)
  | channelCreatorConflict (a b : String)
  | channelMembersConflict (a b : List String)
  | channelPurposeConflict (a b : SlackChannelSub)
  | channelTopicConflict (a b : SlackChannelSub)
  | channelTypeConflict (a b : ChannelType)
  | userConflict (a b : String)
  | postFieldsConflict (ts : String)
  | jsonUnmarshalError (s : String)
  | postOriginalConflict (ts : String)
  | zipNonUTF8Conflict (a b : Bool)
  | zipNameConflict (a b : String)
  | zipCRCUnknown (a b : Nat)
  | zipCRCConflict (a b : Nat)
  | zipSizeConflict (a b : Nat)
  | zipExtraFieldTooLarge (size rem : Nat)
  | zipExtraLeftover (bytes : List Nat)
  | zipExtraConflict (a b : List Nat)
  | zipExternalAttrsConflict (a b : Nat)
deriving DecidableEq

/-- Embedding of `mergeChannel` (`merge.go` lines 161-196): exact equality
of id, name, creator, purpose, topic and type; member slices are cloned,
sorted and compared with `reflect.DeepEqual` (no deduplication). -/
def mergeChannel (a b : SlackChannel) : Except MergeError SlackChannel :=
  if a.id ≠ b.id then .error (.channelIdConflict a.id b.id)
  else if a.name ≠ b.name then .error (.channelNameConflict a.name b.name)
  else if a.creator ≠ b.creator then .error (.channelCreatorConflict a.creator b.creator)
  else if sortStrings a.members ≠ sortStrings b.members then
    .error (.channelMembersConflict a.members b.members)
  else if a.purpose ≠ b.purpose then .error (.channelPurposeConflict a.purpose b.purpose)
  else if a.topic ≠ b.topic then .error (.channelTopicConflict a.topic b.topic)
  else if a.type ≠ b.type then .error (.channelTypeConflict a.type b.type)
  else .ok a

/-- Embedding of `mergeUser` (`merge.go` lines 203-218): identical records
merge; otherwise an empty email on either side is filled from the other
side (the second fill reads the possibly-updated first record, as the Go
code does) and the records must then be identical. -/
def mergeUser (a b : SlackUser) : Except MergeError SlackUser :=
  if a = b then .ok a
  else
    let a' := if a.profile.email = "" then
        { a with profile := { a.profile with email := b.profile.email } } else a
    let b' := if b.profile.email = "" then
        { b with profile := { b.profile with email := a'.profile.email } } else b
    if a' = b' then .ok a'
    else .error (.userConflict a.id b.id)

/-- Embedding of `reflect.DeepEqual(aCopy, bCopy)` in `mergePost` after blanking the
`Original` fields: equality of every embedded field except the
raw-original capture. -/
def postsEqualExceptOriginal (a b : SlackPost) : Bool :=
  a.user = b.user ∧ a.type = b.type ∧ a.subType = b.subType ∧ a.text = b.text ∧
    a.timeStamp = b.timeStamp ∧ a.threadTS = b.threadTS ∧ a.botId = b.botId ∧
    a.comment = b.comment

/-- Embedding of `postOriginalEquivalent` (`merge.go` lines 247-275):
unmarshal both captures (an unparseable capture is an error), scrub the
volatile keys from both, and compare the re-marshalled strings. -/
def postOriginalEquivalent : RawOriginal → RawOriginal → Except MergeError Bool
  | .invalid s, _ => .error (.jsonUnmarshalError s)
  | .valid _, .invalid s => .error (.jsonUnmarshalError s)
  | .valid a, .valid b => .ok (serializeScrubbed a = serializeScrubbed b : Bool)

/-- Embedding of `mergePost` (`merge.go` lines 228-246). -/
def mergePost (a b : SlackPost) : Except MergeError SlackPost :=
  if !postsEqualExceptOriginal a b then .error (.postFieldsConflict a.timeStamp)
  else
    match postOriginalEquivalent a.original b.original with
    | .error e => .error e
    | .ok originalsAreEquivalent =>
      if !originalsAreEquivalent then .error (.postOriginalConflict a.timeStamp)
      else .ok a

/-- Embedding of `sliceEquals` (`merge.go` lines 317-327). -/
def sliceEquals {α : Type} [DecidableEq α] (a b : List α) : Bool :=
  if a.length ≠ b.length then false
  else (a.zip b).all fun p => p.1 = p.2

/-- Embedding of `parseZipExtraFields` (`merge.go` lines 334-349): consume
records of a 2-byte little-endian field id, a 2-byte little-endian length
and a payload; a record length exceeding the remaining bytes, or 1-3
leftover bytes after the final record, is an error. -/
def parseZipExtraFields (extra : List Nat) : Except MergeError (List (Nat × List Nat)) :=
  match extra with
  | b0 :: b1 :: b2 :: b3 :: rest =>
    let field := b0 + 256 * b1
    let size := b2 + 256 * b3
    if size > rest.length then .error (.zipExtraFieldTooLarge size rest.length)
    else
      match parseZipExtraFields (rest.drop size) with
      | .error e => .error e
      | .ok parsed => .ok ((field, rest.take size) :: parsed)
  | [] => .ok []
  | leftover => .error (.zipExtraLeftover leftover)
termination_by extra.length
decreasing_by simp [List.length_drop]; omega

/-- Embedding of `zipExtraCanBeIgnored` (`merge.go` lines 351-364): every
record's field id is the ignorable Extended Timestamp id `0x5455`. -/
def zipExtraCanBeIgnored (extraFields : List (Nat × List Nat)) : Bool :=
  extraFields.all fun field => field.1 = 0x5455

/-- A blob parses successfully and every parsed record has the ignorable
field id. -/
def parseAllIgnorable (bytes : List Nat) : Bool :=
  match parseZipExtraFields bytes with
  | .ok fs => zipExtraCanBeIgnored fs
  | .error _ => false

/-- The tail of `mergeZipFile` after the extra-field reconciliation: the
`ExternalAttrs` comparison and the success result. -/
def mergeZipFileTail (a b : ZipFile) : Except MergeError ZipFile :=
  if a.externalAttrs ≠ b.externalAttrs then
    .error (.zipExternalAttrsConflict a.externalAttrs b.externalAttrs)
  else .ok a

/-- Embedding of `mergeZipFile` (`merge.go` lines 281-315). -/
def mergeZipFile (a b : ZipFile) : Except MergeError ZipFile :=
  if a.nonUTF8 ≠ b.nonUTF8 then .error (.zipNonUTF8Conflict a.nonUTF8 b.nonUTF8)
  else if a.name ≠ b.name then .error (.zipNameConflict a.name b.name)
  else if a.crc32 = 0 ∨ b.crc32 = 0 then .error (.zipCRCUnknown a.crc32 b.crc32)
  else if a.crc32 ≠ b.crc32 then .error (.zipCRCConflict a.crc32 b.crc32)
  else if a.uncompressedSize64 ≠ b.uncompressedSize64 then
    .error (.zipSizeConflict a.uncompressedSize64 b.uncompressedSize64)
  else if !sliceEquals a.extra b.extra then
    match parseZipExtraFields a.extra with
    | .error e => .error e
    | .ok aExtraParsed =>
      match parseZipExtraFields b.extra with
      | .error e => .error e
      | .ok bExtraParsed =>
        if !zipExtraCanBeIgnored aExtraParsed ∨ !zipExtraCanBeIgnored bExtraParsed then
          .error (.zipExtraConflict a.extra b.extra)
        else mergeZipFileTail a b
  else mergeZipFileTail a b

/-- The body of the `mergeSlicesWith` loop for one item: merge it into the
accumulated identity-keyed map (`itemMap[itemId] = ...`), merging with an
existing entry of the same key. -/
def insertItem {α : Type} (merge : α → α → Except MergeError α) :
    List (String × α) → String → α → Except MergeError (List (String × α))
  | [], key, item => .ok [(key, item)]
  | (k, v) :: rest, key, item =>
    if k = key then
      match merge v item with
      | .error e => .error e
      | .ok mergedItem => .ok ((k, mergedItem) :: rest)
    else
      match insertItem merge rest key item with
      | .error e => .error e
      | .ok rest' => .ok ((k, v) :: rest')

/-- Merge a run of keyed items into an accumulated map, left to right:
the shared loop of `mergeSlicesWith` (both source slices) and
`mergeMapsWith` (the second map merged over the clone of the first). -/
def mergePairs {α : Type} (merge : α → α → Except MergeError α) :
    List (String × α) → List (String × α) → Except MergeError (List (String × α))
  | m, [] => .ok m
  | m, (k, x) :: ps =>
    match insertItem merge m k x with
    | .error e => .error e
    | .ok m' => mergePairs merge m' ps

/-- The `(id(item), item)` pairs of a slice, in slice order. -/
def pairsOf {α : Type} (idf : α → String) (xs : List α) : List (String × α) :=
  xs.map fun x => (idf x, x)

/-- Embedding of `mergeSlicesWith` (`merge.go` lines 114-135): fold both
slices into one identity-keyed map (elements with the same identity merge,
including duplicates within the same slice), then return the values.  Go
iterates the map in unspecified order; the embedding fixes insertion
order. -/
def mergeSlicesWith {α : Type} (a b : List α) (idf : α → String)
    (merge : α → α → Except MergeError α) : Except MergeError (List α) :=
  match mergePairs merge [] (pairsOf idf a) with
  | .error e => .error e
  | .ok itemMap =>
    match mergePairs merge itemMap (pairsOf idf b) with
    | .error e => .error e
    | .ok itemMap' => .ok (itemMap'.map Prod.snd)

/-- Embedding of `cloneSlice` (`merge.go` lines 91-95): a shallow copy, which on the
value-level embedding is the slice itself. -/
def cloneSlice {α : Type} (slice : List α) : List α := slice

/-- Embedding of `cloneMap` (`merge.go` lines 100-106): a shallow copy, which on the
value-level embedding is the map itself. -/
def cloneMap {α : Type} (m : List (String × α)) : List (String × α) := m

/-- Embedding of `mergeMapsWith` (`merge.go` lines 140-154): clone the
first map, then merge each entry of the second into it. -/
def mergeMapsWith {α : Type} (a b : List (String × α))
    (merge : α → α → Except MergeError α) : Except MergeError (List (String × α)) :=
  mergePairs merge (cloneMap a) b

/-- Embedding of `mergeChannels` (`merge.go` lines 158-160). -/
def mergeChannels (a b : List SlackChannel) : Except MergeError (List SlackChannel) :=
  mergeSlicesWith a b (fun x => x.id) mergeChannel

/-- Embedding of `mergeUsers` (`merge.go` lines 200-202). -/
def mergeUsers (a b : List SlackUser) : Except MergeError (List SlackUser) :=
  mergeSlicesWith a b (fun x => x.id) mergeUser

/-- Embedding of `mergePostSlice` (`merge.go` lines 225-227). -/
def mergePostSlice (a b : List SlackPost) : Except MergeError (List SlackPost) :=
  mergeSlicesWith a b (fun x => x.timeStamp) mergePost

/-- Embedding of `mergePosts` (`merge.go` lines 222-224). -/
def mergePosts (a b : List (String × List SlackPost)) :
    Except MergeError (List (String × List SlackPost)) :=
  mergeMapsWith a b mergePostSlice

/-- Embedding of `mergeUploads` (`merge.go` lines 278-280). -/
def mergeUploads (a b : List (String × ZipFile)) :
    Except MergeError (List (String × ZipFile)) :=
  mergeMapsWith a b mergeZipFile

/-- The `i == 0` arm of the `MergeSlackExports` loop: the accumulator is
initialised from shallow copies of the first export's collections. -/
def cloneExport (e : SlackExport) : SlackExport :=
  { teamName := e.teamName
    channels := cloneSlice e.channels
    publicChannels := cloneSlice e.publicChannels
    privateChannels := cloneSlice e.privateChannels
    groupChannels := cloneSlice e.groupChannels
    directChannels := cloneSlice e.directChannels
    users := cloneSlice e.users
    posts := cloneMap e.posts
    uploads := cloneMap e.uploads }

/-- One `i ≥ 1` iteration of the `MergeSlackExports` loop: the team-name
check, then the eight collection merges in source order. -/
def mergeStep (result slackExport : SlackExport) : Except MergeError SlackExport :=
  if result.teamName ≠ slackExport.teamName then
    .error (.teamMismatch result.teamName slackExport.teamName)
  else
    match mergeChannels result.channels slackExport.channels with
    | .error e => .error e
    | .ok channels =>
    match mergeChannels result.publicChannels slackExport.publicChannels with
    | .error e => .error e
    | .ok publicChannels =>
    match mergeChannels result.privateChannels slackExport.privateChannels with
    | .error e => .error e
    | .ok privateChannels =>
    match mergeChannels result.groupChannels slackExport.groupChannels with
    | .error e => .error e
    | .ok groupChannels =>
    match mergeChannels result.directChannels slackExport.directChannels with
    | .error e => .error e
    | .ok directChannels =>
    match mergeUsers result.users slackExport.users with
    | .error e => .error e
    | .ok users =>
    match mergePosts result.posts slackExport.posts with
    | .error e => .error e
    | .ok posts =>
    match mergeUploads result.uploads slackExport.uploads with
    | .error e => .error e
    | .ok uploads =>
      .ok { teamName := result.teamName, channels := channels,
            publicChannels := publicChannels, privateChannels := privateChannels,
            groupChannels := groupChannels, directChannels := directChannels,
            users := users, posts := posts, uploads := uploads }

/-- The `i ≥ 1` portion of the `MergeSlackExports` loop. -/
def mergeFold (acc : SlackExport) : List SlackExport → Except MergeError SlackExport
  | [] => .ok acc
  | e :: rest =>
    match mergeStep acc e with
    | .error er => .error er
    | .ok acc' => mergeFold acc' rest

/-- Embedding of `MergeSlackExports` (`merge.go` lines 18-86): zero
exports fail, one export is returned unchanged, otherwise the exports are
folded left to right starting from a copy of the first. -/
def mergeSlackExports : List SlackExport → Except MergeError SlackExport
  | [] => .error .noExports
  | [e] => .ok e
  | e :: rest => mergeFold (cloneExport e) rest

/-- Whether a fallible operation succeeded (`err == nil`). -/
def isOkE {α : Type} : Except MergeError α → Bool
  | .ok _ => true
  | .error _ => false

/-- The conditions under which merging identical copies of an export is
the identity: every collection's identity keys are pairwise distinct,
every post's raw-original capture unmarshals as a JSON object, and every
upload's CRC32 checksum is known (non-zero). -/
def postSliceIdemPre (ps : List SlackPost) : Bool :=
  decide (ps.map fun p => p.timeStamp).Nodup && ps.all fun p => p.original.isValid

/-- See `postSliceIdemPre`. -/
def exportIdemPre (e : SlackExport) : Bool :=
  decide (e.channels.map fun c => c.id).Nodup &&
  decide (e.publicChannels.map fun c => c.id).Nodup &&
  decide (e.privateChannels.map fun c => c.id).Nodup &&
  decide (e.groupChannels.map fun c => c.id).Nodup &&
  decide (e.directChannels.map fun c => c.id).Nodup &&
  decide (e.users.map fun u => u.id).Nodup &&
  decide (e.posts.map Prod.fst).Nodup &&
  e.posts.all (fun kv => postSliceIdemPre kv.2) &&
  decide (e.uploads.map Prod.fst).Nodup &&
  e.uploads.all (fun kv => decide (kv.2.crc32 ≠ 0))

/-- Written from the claim's words (the spec side of C7's parse-failure
characterisation): an extensible-metadata blob is well formed when it is a
sequence of records of a 2-byte field id, a 2-byte little-endian length,
and a payload of exactly that length, with no leftover bytes at the
end. -/
inductive ZipExtraWellFormed : List Nat → Prop
  | nil : ZipExtraWellFormed []
  | cons (b0 b1 b2 b3 : Nat) (payload rest : List Nat)
      (hlen : payload.length = b2 + 256 * b3)
      (h : ZipExtraWellFormed rest) :
      ZipExtraWellFormed (b0 :: b1 :: b2 :: b3 :: (payload ++ rest))

/-- Written from the claim's words (the spec side of C8): an override
field that, when present and non-empty, replaces the current value and is
stored literally — even when it is the dash sentinel. -/
def ovFieldLiteral (cur new : String) : String :=
  if new = "" then cur else new

/-- Written from the claim's words (the spec side of C8): an override
field that, when present and non-empty, replaces the current value, with
the single-dash sentinel clearing the field to empty. -/
def ovFieldDashClears (cur new : String) : String :=
  if new = "" then cur else if new = "-" then "" else new

/-- An empty override record (all-zero-value `IntermediateUser`), the
record a CSV row with no optional columns produces. -/
def emptyUserOverride : IntermediateUser :=
  { id := "", username := "", firstName := "", lastName := "", position := "",
    email := "", password := "", memberships := [] }

/-- An empty channel override record. -/
def emptyChannelOverride : IntermediateChannel :=
  { id := "", originalName := "", name := "", displayName := "", members := [],
    membersUsernames := [], purpose := "", header := "", topic := "",
    type := .open_ }

/-- A public channel used as concrete input in several scenarios. -/
def demoChannelOpen : IntermediateChannel :=
  { id := "C100", originalName := "general", name := "general",
    displayName := "general", members := ["U1"], membersUsernames := [],
    purpose := "", header := "", topic := "", type := .open_ }

/-- A plain-message Slack post with the given timestamp, thread-root
timestamp and text. -/
def mkDemoPost (ts threadTS text : String) : SlackPost :=
  { user := "U1", type := "message", subType := "", text := text,
    timeStamp := ts, threadTS := threadTS, botId := "", comment := none,
    original := .valid [] }

/-- A direct channel (C10 scenarios). -/
def demoChannelDirect : IntermediateChannel :=
  { id := "D100", originalName := "D100", name := "__mpdm-a--b-1__",
    displayName := "_ab_", members := ["U1", "U2"],
    membersUsernames := ["alice", "bob"], purpose := "p", header := "h",
    topic := "t", type := .direct }

/-- Two unthreaded posts whose distinct timestamp strings round to the
same millisecond (C1). -/
def c1P1 : SlackPost := mkDemoPost "5.0001" "" "first"

/-- See `c1P1`. -/
def c1P2 : SlackPost := mkDemoPost "5.0002" "" "second"

/-- A thread root and a reply to it, rounding to the same millisecond
(C1). -/
def c1Root : SlackPost := mkDemoPost "6.0001" "6.0001" "root"

/-- See `c1Root`. -/
def c1Reply : SlackPost := mkDemoPost "6.0002" "6.0001" "reply"

/-- Two distinct source posts sharing one timestamp string (C1). -/
def c1Dup1 : SlackPost := mkDemoPost "5.0" "" "kept"

/-- See `c1Dup1`. -/
def c1Dup2 : SlackPost := mkDemoPost "5.0" "" "overwrites"

/-- A well-formed channel for the merge scenarios. -/
def demoChannelA : SlackChannel :=
  { id := "C1", name := "general", creator := "U1", members := ["U1", "U2"],
    purpose := ⟨"purpose"⟩, topic := ⟨"topic"⟩, type := .open_ }

/-- A well-formed user for the merge scenarios. -/
def demoUserA : SlackUser :=
  { id := "U1", username := "alice", isBot := false,
    profile := { firstName := "Alice", lastName := "A", title := "",
                 email := "alice@example.com", botID := "" } }

/-- A post whose raw-original capture parses as a JSON object. -/
def demoPostA : SlackPost :=
  { mkDemoPost "1549307811.0741" "" "hello" with
    original := .valid [("text", .str "hello"), ("last_read", .str "1")] }

/-- An upload with a known checksum. -/
def demoZipA : ZipFile :=
  { nonUTF8 := false, name := "f.png", comment := "", crc32 := 123,
    uncompressedSize64 := 10, extra := [], externalAttrs := 0 }

/-- A well-formed export with one entry in every collection (C2 witness
scenario). -/
def demoExport : SlackExport :=
  { teamName := "team", channels := [demoChannelA],
    publicChannels := [demoChannelA], privateChannels := [],
    groupChannels := [], directChannels := [], users := [demoUserA],
    posts := [("general", [demoPostA])], uploads := [("F1", demoZipA)] }

/-- An export whose channel list contains the same channel twice (C2
counterexample scenario). -/
def demoExportDup : SlackExport :=
  { teamName := "team", channels := [demoChannelA, demoChannelA],
    publicChannels := [], privateChannels := [], groupChannels := [],
    directChannels := [], users := [], posts := [], uploads := [] }

/-- A channel whose member list repeats a member (C3). -/
def c3ChanA : SlackChannel :=
  { id := "C1", name := "general", creator := "U1", members := ["U1", "U1"],
    purpose := ⟨""⟩, topic := ⟨""⟩, type := .open_ }

/-- The same channel with the duplicate removed: the same member set. -/
def c3ChanB : SlackChannel := { c3ChanA with members := ["U1"] }

/-- Exports for the C5 scenarios: same team, conflicting channel names. -/
def c5CexChanA : SlackChannel :=
  { id := "C1", name := "one", creator := "U1", members := ["U1"],
    purpose := ⟨""⟩, topic := ⟨""⟩, type := .open_ }

/-- See `c5CexChanA`. -/
def c5CexChanB : SlackChannel := { c5CexChanA with name := "two" }

/-- See `c5CexChanA`. -/
def c5CexE1 : SlackExport :=
  { teamName := "T", channels := [c5CexChanA], publicChannels := [],
    privateChannels := [], groupChannels := [], directChannels := [],
    users := [], posts := [], uploads := [] }

/-- See `c5CexChanA`. -/
def c5CexE2 : SlackExport := { c5CexE1 with channels := [c5CexChanB] }

/-- A third snapshot with a different team name (C5). -/
def c5CexE3 : SlackExport := { c5CexE1 with teamName := "U", channels := [] }

/-- Exports with different team names and conflicting channels (C5
witness scenario). -/
def c5WitA : SlackExport := { c5CexE1 with teamName := "alpha" }

/-- See `c5WitA`. -/
def c5WitB : SlackExport :=
  { c5CexE1 with teamName := "beta", channels := [c5CexChanB] }

/-- An extensible-metadata blob holding one empty Extended Timestamp
(0x5455) record. -/
def c7ExtraUT0 : List Nat := [0x55, 0x54, 0, 0]

/-- An extensible-metadata blob holding one one-byte Extended Timestamp
record: same ignorable field id, different bytes. -/
def c7ExtraUT1 : List Nat := [0x55, 0x54, 1, 0, 7]

/-- Attachment descriptors differing only in ignorable extra records (C7
witness scenario). -/
def c7WitA : ZipFile :=
  { nonUTF8 := false, name := "a.png", comment := "x", crc32 := 5,
    uncompressedSize64 := 9, extra := c7ExtraUT0, externalAttrs := 4 }

/-- See `c7WitA`. -/
def c7WitB : ZipFile := { c7WitA with comment := "y", extra := c7ExtraUT1 }

/-- Attachment descriptors with ignorable differing extras but different
external attribute bits (C7 counterexample scenario). -/
def c7CexA : ZipFile := c7WitA

/-- See `c7CexA`. -/
def c7CexB : ZipFile := { c7WitA with extra := c7ExtraUT1, externalAttrs := 8 }

/-- A user override whose email field is the dash sentinel (C8
counterexample scenario). -/
def c8DemoOverride : IntermediateUser := { emptyUserOverride with email := "-" }

/-- The user the override applies to. -/
def c8DemoUser : IntermediateUser :=
  { emptyUserOverride with username := "alice", email := "alice@example.com" }

/-- A user override exercising both field behaviours: a dash position
(cleared) and a dash email (stored literally). -/
def c8WitOverride : IntermediateUser :=
  { emptyUserOverride with position := "-", email := "-", firstName := "New" }

/-- The user the C8 witness override applies to. -/
def c8WitUser : IntermediateUser :=
  { emptyUserOverride with
    username := "alice", firstName := "Old", position := "mgr",
    email := "alice@example.com", password := "pw" }

/-- A channel override with a dash purpose (C8 witness scenario). -/
def c8WitChanOverride : IntermediateChannel :=
  { emptyChannelOverride with purpose := "-", displayName := "Renamed" }

/-- The channel the override applies to. -/
def c8WitChan : IntermediateChannel :=
  { emptyChannelOverride with name := "general", purpose := "old", header := "h" }

/-- A file-comment post whose comment author `U1` is missing from the
user index while the post's own `User` field is `U2` (C9 failing
input). -/
def c9DemoPost : SlackPost :=
  { user := "U2", type := "message", subType := "file_comment", text := "",
    timeStamp := "3.0", threadTS := "", botId := "",
    comment := some { user := "U1", comment := "nice" }, original := .valid [] }

/-- The placeholder the C9 failing input actually creates: keyed by the
post's `User` field, not the comment's. -/
def c9CreatedUser : IntermediateUser :=
  { id := "U2", username := "u2", firstName := "Deleted", lastName := "User",
    position := "", email := "U2@local", password := "pw1", memberships := [] }

/-! ## Theorems -/

/-- C10: `Sanitise` on a direct channel returns immediately: every field
is left unchanged and no warning is emitted — no trimming, prefixing,
invalid-character fallback, or truncation happens. -/
theorem c10_sanitise_direct_noop (c : IntermediateChannel)
    (h : c.type = .direct) : sanitise c = (c, []) := by
  simp [sanitise, h]

/-- Witness for C10 at a concrete direct channel whose name, display
name, purpose and header would all be rewritten were it not direct. -/
theorem c10_sanitise_direct_noop_witness :
    sanitise demoChannelDirect = (demoChannelDirect, []) :=
  c10_sanitise_direct_noop demoChannelDirect rfl

/-- C6: the millisecond normalizer (modelled from spec §4.1, validated
against the `TestSlackConvertTimeStamp` vector of `export_test.go`) maps
the unparseable string to the sentinel 1 and parseable decimal-second
strings to `round(value·1000)` with half-up rounding, a trailing dot
meaning zero fraction. -/
theorem c6_slackConvertTimeStamp_vector :
    slackConvertTimeStamp "asd" = 1 ∧
    slackConvertTimeStamp "1549307811" = 1549307811000 ∧
    slackConvertTimeStamp "1549307811.074100" = 1549307811074 ∧
    slackConvertTimeStamp "1549307811.074500" = 1549307811075 ∧
    slackConvertTimeStamp "1549307811.12345" = 1549307811123 ∧
    slackConvertTimeStamp "1549307811." = 1549307811000 ∧
    slackConvertTimeStamp "1549307811.1" = 1549307811100 ∧
    slackConvertTimeStamp "1549307811.12" = 1549307811120 ∧
    slackConvertTimeStamp "1549307811.123" = 1549307811123 ∧
    slackConvertTimeStamp "1549307811.1234" = 1549307811123 := by
  decide

/-- C9 (failing input): on a file-comment post whose comment author `U1`
is absent from the user index, the transform creates and indexes the
"Deleted User" placeholder under the post's `User` field `U2`, leaves
`U1` unindexed, and attributes the comment to `u2` — the claim (and the
lookup three lines earlier in the same branch) key the placeholder by the
comment's user id. -/
theorem c9_file_comment_wrong_placeholder_key :
    (transformFileCommentPost [] "pw1" [] demoChannelOpen c9DemoPost).1 =
      [("U2", c9CreatedUser)] ∧
    lookupA (transformFileCommentPost [] "pw1" [] demoChannelOpen c9DemoPost).1
      "U1" = none ∧
    ((transformFileCommentPost [] "pw1" [] demoChannelOpen c9DemoPost).2.map
      IntermediatePost.user) = some "u2" := by
  decide

/-- C8 (counterexample): a user override whose email field is the dash
sentinel stores the dash literally instead of clearing the email — the
dash sentinel is only honoured for first name, last name and position on
users. -/
theorem c8_counterexample :
    (applyUserOverrides [("alice", c8DemoOverride)] c8DemoUser).email = "-" ∧
    (applyUserOverrides [("alice", c8DemoOverride)] c8DemoUser).email ≠ "" := by
  decide

/-- The literal-replacement conditional of the override code equals the
spec-side `ovFieldLiteral`. -/
theorem ovFieldLiteral_code (cur new : String) :
    (if new ≠ "" then new else cur) = ovFieldLiteral cur new := by
  unfold ovFieldLiteral
  split_ifs <;> simp_all

/-- The dash-aware conditional of the override code equals the spec-side
`ovFieldDashClears`. -/
theorem ovFieldDashClears_code (cur new : String) :
    (if new ≠ "" then (if new = "-" then "" else new) else cur) =
      ovFieldDashClears cur new := by
  unfold ovFieldDashClears
  split_ifs <;> simp_all

/-- The field-by-field behaviour of `ApplyUserOverrides` on a matched
override: username, email and password replace literally (the dash
sentinel is stored as-is), while first name, last name and position honour
the dash sentinel by clearing the field. -/
theorem applyUserOverrides_eq (ovs : List (String × IntermediateUser))
    (u o : IntermediateUser) (h : lookupA ovs u.username = some o) :
    applyUserOverrides ovs u =
      { u with username := ovFieldLiteral u.username o.username,
               firstName := ovFieldDashClears u.firstName o.firstName,
               lastName := ovFieldDashClears u.lastName o.lastName,
               position := ovFieldDashClears u.position o.position,
               email := ovFieldLiteral u.email o.email,
               password := ovFieldLiteral u.password o.password } := by
  have hne : ¬ ovs.length = 0 := by
    intro hlen
    rw [List.length_eq_zero] at hlen
    subst hlen
    simp [lookupA] at h
  unfold applyUserOverrides
  rw [if_neg hne, h]
  simp only [ovFieldLiteral_code, ovFieldDashClears_code]

/-- The field-by-field behaviour of `ApplyChannelOverrides` on a matched
override: all five optional fields honour the dash sentinel. -/
theorem applyChannelOverrides_eq (ovs : List (String × IntermediateChannel))
    (c o : IntermediateChannel) (h : lookupA ovs c.name = some o) :
    applyChannelOverrides ovs c =
      { c with name := ovFieldDashClears c.name o.name,
               displayName := ovFieldDashClears c.displayName o.displayName,
               purpose := ovFieldDashClears c.purpose o.purpose,
               header := ovFieldDashClears c.header o.header,
               topic := ovFieldDashClears c.topic o.topic } := by
  have hne : ¬ ovs.length = 0 := by
    intro hlen
    rw [List.length_eq_zero] at hlen
    subst hlen
    simp [lookupA] at h
  unfold applyChannelOverrides
  rw [if_neg hne, h]
  simp only [ovFieldDashClears_code]

/-- C8 (amended): for a matched override, each optional field that is
present and non-empty replaces the target's value; the dash sentinel
clears the field for the user fields first name, last name and position
and for all five channel fields, but for username, email and password the
dash is stored literally. -/
theorem c8_override_application (ovs : List (String × IntermediateUser))
    (covs : List (String × IntermediateChannel)) (u o : IntermediateUser)
    (c oc : IntermediateChannel) (hu : lookupA ovs u.username = some o)
    (hc : lookupA covs c.name = some oc) :
    applyUserOverrides ovs u =
      { u with username := ovFieldLiteral u.username o.username,
               firstName := ovFieldDashClears u.firstName o.firstName,
               lastName := ovFieldDashClears u.lastName o.lastName,
               position := ovFieldDashClears u.position o.position,
               email := ovFieldLiteral u.email o.email,
               password := ovFieldLiteral u.password o.password } ∧
    applyChannelOverrides covs c =
      { c with name := ovFieldDashClears c.name oc.name,
               displayName := ovFieldDashClears c.displayName oc.displayName,
               purpose := ovFieldDashClears c.purpose oc.purpose,
               header := ovFieldDashClears c.header oc.header,
               topic := ovFieldDashClears c.topic oc.topic } :=
  ⟨applyUserOverrides_eq ovs u o hu, applyChannelOverrides_eq covs c oc hc⟩

/-- Witness for C8: the dash position is cleared while the dash email is
kept literally on the user, and the dash purpose is cleared on the
channel. -/
theorem c8_override_application_witness :
    applyUserOverrides [("alice", c8WitOverride)] c8WitUser =
      { c8WitUser with firstName := "New", position := "", email := "-" } ∧
    applyChannelOverrides [("general", c8WitChanOverride)] c8WitChan =
      { c8WitChan with displayName := "Renamed", purpose := "" } := by
  have h := c8_override_application [("alice", c8WitOverride)]
    [("general", c8WitChanOverride)] c8WitUser c8WitOverride c8WitChan
    c8WitChanOverride (by decide) (by decide)
  exact ⟨h.1.trans (by decide), h.2.trans (by decide)⟩

/-- Sorting two string lists yields equal results exactly when the lists
are permutations of each other: the member comparison of `mergeChannel`
(sort, then `reflect.DeepEqual`) is multiset equality. -/
theorem sortStrings_eq_iff {a b : List String} :
    sortStrings a = sortStrings b ↔ a.Perm b := by
  haveI : IsTotal String (fun a b => a.data ≤ b.data) :=
    ⟨fun a b => le_total a.data b.data⟩
  haveI : IsTrans String (fun a b => a.data ≤ b.data) :=
    ⟨fun a b c h1 h2 => le_trans h1 h2⟩
  haveI : IsAntisymm String (fun a b => a.data ≤ b.data) :=
    ⟨fun a b h1 h2 => by
      cases a; cases b
      simp only at h1 h2
      exact congrArg String.mk (le_antisymm h1 h2)⟩
  constructor
  · intro h
    have p1 : (sortStrings a).Perm a := List.perm_insertionSort _ a
    have p2 : (sortStrings b).Perm b := List.perm_insertionSort _ b
    rw [← h] at p2
    exact p1.symm.trans p2
  · intro h
    exact List.eq_of_perm_of_sorted
      ((List.perm_insertionSort _ a).trans
        (h.trans (List.perm_insertionSort _ b).symm))
      (List.sorted_insertionSort _ a) (List.sorted_insertionSort _ b)

/-- C3 (amended): `mergeChannel` succeeds exactly when the two channels
agree on id, name, creator, purpose, topic and type and their member
lists are permutations of each other (multiset equality: duplicates
count, order does not).  Member lists with equal underlying sets but
different multiplicities conflict. -/
theorem c3_mergeChannel_characterisation (a b : SlackChannel) :
    isOkE (mergeChannel a b) = true ↔
      (a.id = b.id ∧ a.name = b.name ∧ a.creator = b.creator ∧
       a.members.Perm b.members ∧ a.purpose = b.purpose ∧
       a.topic = b.topic ∧ a.type = b.type) := by
  unfold mergeChannel
  split_ifs with h1 h2 h3 h4 h5 h6 h7 <;>
    simp_all [isOkE, sortStrings_eq_iff]

/-- C3 (counterexample): two channels equal in every scalar field whose
member lists have the same underlying set (`{U1}`) but different
multiplicities fail to merge — `mergeChannel` sorts without removing
duplicates. -/
theorem c3_counterexample :
    c3ChanA.members.toFinset = c3ChanB.members.toFinset ∧
    c3ChanA.id = c3ChanB.id ∧ c3ChanA.name = c3ChanB.name ∧
    c3ChanA.creator = c3ChanB.creator ∧ c3ChanA.purpose = c3ChanB.purpose ∧
    c3ChanA.topic = c3ChanB.topic ∧ c3ChanA.type = c3ChanB.type ∧
    isOkE (mergeChannel c3ChanA c3ChanB) = false := by
  decide

/-- C4: `mergePost` succeeds exactly when (1) every field other than the
raw-original capture is equal, and (2) both captures unmarshal as JSON
objects and, after deleting top-level `last_read` and `subscribed` and
every `block_id` inside object entries of the top-level `blocks` array,
re-serialize to identical strings.  In particular an unequal field, a
scrub-surviving difference, or an unparseable capture (even two identical
unparseable captures) makes the merge fail. -/
theorem c4_mergePost_characterisation (a b : SlackPost) :
    isOkE (mergePost a b) = true ↔
      (postsEqualExceptOriginal a b = true ∧
        ∃ fa fb, a.original = .valid fa ∧ b.original = .valid fb ∧
          serializeScrubbed fa = serializeScrubbed fb) := by
  unfold mergePost
  cases hab : postsEqualExceptOriginal a b
  · simp [isOkE, hab]
  · cases ha : a.original <;> cases hb : b.original <;>
      simp only [postOriginalEquivalent, isOkE, Bool.not_true, Bool.not_false,
        if_true, if_false, RawOriginal.valid.injEq, RawOriginal.invalid.injEq]
    · simp [isOkE]
    · simp [isOkE]
    · simp [isOkE]
    · rename_i fa fb
      by_cases hs : serializeScrubbed fa = serializeScrubbed fb <;>
        simp [isOkE, hs, ha, hb]

/-- Unfolding: record header with a length exceeding the remaining
bytes. -/
theorem parseZipExtraFields_cons_gt {b0 b1 b2 b3 : Nat} {rest : List Nat}
    (h : b2 + 256 * b3 > rest.length) :
    parseZipExtraFields (b0 :: b1 :: b2 :: b3 :: rest) =
      .error (.zipExtraFieldTooLarge (b2 + 256 * b3) rest.length) := by
  rw [parseZipExtraFields]
  simp [h]

/-- Unfolding: record header whose length fits. -/
theorem parseZipExtraFields_cons_le {b0 b1 b2 b3 : Nat} {rest : List Nat}
    (h : ¬ b2 + 256 * b3 > rest.length) :
    parseZipExtraFields (b0 :: b1 :: b2 :: b3 :: rest) =
      match parseZipExtraFields (rest.drop (b2 + 256 * b3)) with
      | .error e => .error e
      | .ok parsed =>
          .ok ((b0 + 256 * b1, rest.take (b2 + 256 * b3)) :: parsed) := by
  rw [parseZipExtraFields]
  simp [h]

/-- Unfolding: the empty blob parses to the empty record list. -/
theorem parseZipExtraFields_nil : parseZipExtraFields [] = .ok [] := by
  rw [parseZipExtraFields]

/-- Unfolding: one leftover byte. -/
theorem parseZipExtraFields_one (a : Nat) :
    parseZipExtraFields [a] = .error (.zipExtraLeftover [a]) := by
  rw [parseZipExtraFields] <;> simp

/-- Unfolding: two leftover bytes. -/
theorem parseZipExtraFields_two (a b : Nat) :
    parseZipExtraFields [a, b] = .error (.zipExtraLeftover [a, b]) := by
  rw [parseZipExtraFields] <;> simp

/-- Unfolding: three leftover bytes. -/
theorem parseZipExtraFields_three (a b c : Nat) :
    parseZipExtraFields [a, b, c] = .error (.zipExtraLeftover [a, b, c]) := by
  rw [parseZipExtraFields] <;> simp

/-- A short (1-3 byte) blob is not well formed. -/
theorem not_wf_short (l : List Nat) (hne : l ≠ []) (hlt : l.length < 4) :
    ¬ ZipExtraWellFormed l := by
  intro h
  cases h with
  | nil => exact hne rfl
  | cons b0 b1 b2 b3 payload rest hlen hwf => simp at hlt; omega

/-- The parser of extensible-metadata blobs succeeds exactly on
well-formed record sequences: it fails exactly when some record's length
exceeds the remaining bytes or 1-3 bytes are left over after the final
record. -/
theorem parseZipExtraFields_ok_iff (extra : List Nat) :
    isOkE (parseZipExtraFields extra) = true ↔ ZipExtraWellFormed extra := by
  have main : ∀ (n : Nat) (l : List Nat), l.length ≤ n →
      (isOkE (parseZipExtraFields l) = true ↔ ZipExtraWellFormed l) := by
    intro n
    induction n with
    | zero =>
      intro l hlen
      have : l = [] := List.length_eq_zero.mp (Nat.le_zero.mp hlen)
      subst this
      simp [parseZipExtraFields_nil, isOkE, ZipExtraWellFormed.nil]
    | succ n ihn =>
      intro l hlen
      match l with
      | [] => simp [parseZipExtraFields_nil, isOkE, ZipExtraWellFormed.nil]
      | [a] =>
        simp only [parseZipExtraFields_one, isOkE]
        simp [not_wf_short [a] (by simp) (by simp)]
      | [a, b] =>
        simp only [parseZipExtraFields_two, isOkE]
        simp [not_wf_short [a, b] (by simp) (by simp)]
      | [a, b, c] =>
        simp only [parseZipExtraFields_three, isOkE]
        simp [not_wf_short [a, b, c] (by simp) (by simp)]
      | b0 :: b1 :: b2 :: b3 :: rest =>
        by_cases hgt : b2 + 256 * b3 > rest.length
        · rw [parseZipExtraFields_cons_gt hgt]
          constructor
          · intro h
            simp [isOkE] at h
          · intro h
            exfalso
            cases h with
            | cons _ _ _ _ payload rest' hlen' hwf =>
              simp only [List.length_append] at hgt
              omega
        · rw [parseZipExtraFields_cons_le hgt]
          have hdlen : (rest.drop (b2 + 256 * b3)).length ≤ n := by
            simp only [List.length_cons] at hlen
            simp only [List.length_drop]
            omega
          have ihd := ihn (rest.drop (b2 + 256 * b3)) hdlen
          cases hp : parseZipExtraFields (rest.drop (b2 + 256 * b3)) with
          | error e =>
            rw [hp] at ihd
            constructor
            · intro h
              simp [isOkE] at h
            · intro h
              exfalso
              cases h with
              | cons _ _ _ _ payload rest' hlen' hwf =>
                have hdrop : (payload ++ rest').drop (b2 + 256 * b3) = rest' := by
                  rw [← hlen']
                  exact List.drop_left payload rest'
                rw [hdrop] at ihd
                have hcontra : isOkE
                    (Except.error e : Except MergeError (List (Nat × List Nat))) =
                      true := ihd.mpr hwf
                simp [isOkE] at hcontra
          | ok parsed =>
            rw [hp] at ihd
            have hwfd : ZipExtraWellFormed (rest.drop (b2 + 256 * b3)) :=
              ihd.mp (by simp [isOkE])
            constructor
            · intro _
              have hsplit : b0 :: b1 :: b2 :: b3 :: rest =
                  b0 :: b1 :: b2 :: b3 ::
                    (rest.take (b2 + 256 * b3) ++ rest.drop (b2 + 256 * b3)) := by
                rw [List.take_append_drop]
              rw [hsplit]
              exact ZipExtraWellFormed.cons b0 b1 b2 b3 _ _
                (by simp only [List.length_take]; omega) hwfd
            · intro _
              simp [isOkE]
  exact main extra.length extra le_rfl

/-- Every zipped pair of a slice with itself is componentwise equal. -/
theorem zipSelfAll {α : Type} [DecidableEq α] (x : List α) :
    ((x.zip x).all fun p => p.1 = p.2) = true := by
  induction x with
  | nil => rfl
  | cons a xs ih =>
    simp only [List.zip_cons_cons, List.all_cons, decide_eq_true_eq,
      Bool.and_eq_true]
    exact ⟨trivial, ih⟩

/-- Comparing a slice with itself with `sliceEquals` is `true`. -/
theorem sliceEquals_self {α : Type} [DecidableEq α] (x : List α) :
    sliceEquals x x = true := by
  unfold sliceEquals
  rw [if_neg (by simp)]
  exact zipSelfAll x

/-- The comparison `sliceEquals` only accepts equal slices. -/
theorem sliceEquals_true_imp {α : Type} [DecidableEq α] :
    ∀ x y : List α, sliceEquals x y = true → x = y := by
  intro x
  induction x with
  | nil =>
    intro y h
    cases y with
    | nil => rfl
    | cons b ys => simp [sliceEquals] at h
  | cons a xs ih =>
    intro y h
    cases y with
    | nil => simp [sliceEquals] at h
    | cons b ys =>
      unfold sliceEquals at h
      split_ifs at h with hl
      · have hlen : xs.length = ys.length := by simpa using hl
        simp only [List.zip_cons_cons, List.all_cons, Bool.and_eq_true,
          decide_eq_true_eq] at h
        obtain ⟨hab, hrest⟩ := h
        have hxs : sliceEquals xs ys = true := by
          unfold sliceEquals
          rw [if_neg (by simp [hlen])]
          exact hrest
        rw [hab, ih ys hxs]

/-- Distinct slices make `sliceEquals` return `false`. -/
theorem sliceEquals_false_of_ne {α : Type} [DecidableEq α] {x y : List α}
    (h : x ≠ y) : sliceEquals x y = false := by
  cases hs : sliceEquals x y
  · rfl
  · exact absurd (sliceEquals_true_imp x y hs) h

/-- Concrete evaluation: the empty Extended Timestamp record blob. -/
theorem c7ParseUT0 : parseZipExtraFields c7ExtraUT0 = .ok [(0x5455, [])] := by
  show parseZipExtraFields [0x55, 0x54, 0, 0] = _
  rw [parseZipExtraFields_cons_le (by decide)]
  rw [show List.drop (0 + 256 * 0) ([] : List Nat) = [] from rfl,
    parseZipExtraFields_nil]
  rfl

/-- Concrete evaluation: the one-byte Extended Timestamp record blob. -/
theorem c7ParseUT1 : parseZipExtraFields c7ExtraUT1 = .ok [(0x5455, [7])] := by
  show parseZipExtraFields [0x55, 0x54, 1, 0, 7] = _
  rw [parseZipExtraFields_cons_le (by decide)]
  rw [show List.drop (1 + 256 * 0) ([7] : List Nat) = [] from rfl,
    parseZipExtraFields_nil]
  rfl

/-- C7 (amended): the extensible-metadata blob parser fails exactly on
malformed blobs (a record length exceeding the remaining bytes, or 1-3
leftover bytes); and for two descriptors agreeing on non-UTF8 flag, name,
known non-zero checksum, uncompressed size AND external attribute bits
whose blobs differ byte-wise, a parse failure on either blob aborts the
merge with that parse error, and otherwise the merge succeeds (retaining
the first descriptor) exactly when every parsed record of both blobs has
the ignorable field id 0x5455. -/
theorem c7_mergeZipFile_extra_fields :
    (∀ bytes, isOkE (parseZipExtraFields bytes) = true ↔
        ZipExtraWellFormed bytes) ∧
    (∀ a b : ZipFile, a.nonUTF8 = b.nonUTF8 → a.name = b.name →
      a.crc32 = b.crc32 → a.crc32 ≠ 0 →
      a.uncompressedSize64 = b.uncompressedSize64 →
      a.externalAttrs = b.externalAttrs → a.extra ≠ b.extra →
      ((∀ e, parseZipExtraFields a.extra = .error e →
          mergeZipFile a b = .error e) ∧
       (∀ fs e, parseZipExtraFields a.extra = .ok fs →
          parseZipExtraFields b.extra = .error e →
          mergeZipFile a b = .error e) ∧
       (mergeZipFile a b = .ok a ↔
         (parseAllIgnorable a.extra = true ∧
          parseAllIgnorable b.extra = true)))) := by
  refine ⟨parseZipExtraFields_ok_iff, ?_⟩
  intro a b h1 h2 h3 h4 h5 h6 h7
  have hbcrc : b.crc32 ≠ 0 := h3 ▸ h4
  have hslice := sliceEquals_false_of_ne h7
  have hexpand : mergeZipFile a b =
      (match parseZipExtraFields a.extra with
       | .error e => .error e
       | .ok aExtraParsed =>
         match parseZipExtraFields b.extra with
         | .error e => .error e
         | .ok bExtraParsed =>
           if !zipExtraCanBeIgnored aExtraParsed ∨
               !zipExtraCanBeIgnored bExtraParsed then
             .error (.zipExtraConflict a.extra b.extra)
           else mergeZipFileTail a b) := by
    unfold mergeZipFile
    rw [if_neg (by simp [h1]), if_neg (by simp [h2]),
      if_neg (by simp [h4, hbcrc]), if_neg (by simp [h3]),
      if_neg (by simp [h5]), if_pos (by simp [hslice])]
  refine ⟨?_, ?_, ?_⟩
  · intro e he
    rw [hexpand, he]
  · intro fs e hfs he
    rw [hexpand, hfs, he]
  · cases hpa : parseZipExtraFields a.extra with
    | error e =>
      rw [hexpand, hpa]
      simp [parseAllIgnorable, hpa]
    | ok aP =>
      cases hpb : parseZipExtraFields b.extra with
      | error e =>
        rw [hexpand, hpa, hpb]
        simp [parseAllIgnorable, hpa, hpb]
      | ok bP =>
        rw [hexpand, hpa, hpb]
        by_cases hia : zipExtraCanBeIgnored aP <;>
          by_cases hib : zipExtraCanBeIgnored bP <;>
            simp [parseAllIgnorable, hpa, hpb, hia, hib, mergeZipFileTail, h6]

/-- Witness for C7: descriptors agreeing on everything the merge compares
whose blobs differ only in ignorable Extended Timestamp records merge,
retaining the first. -/
theorem c7_mergeZipFile_extra_fields_witness :
    mergeZipFile c7WitA c7WitB = .ok c7WitA := by
  have h := (c7_mergeZipFile_extra_fields.2 c7WitA c7WitB rfl rfl rfl
    (by decide) rfl rfl (by decide)).2.2
  refine h.mpr ⟨?_, ?_⟩
  · show parseAllIgnorable c7ExtraUT0 = true
    rw [parseAllIgnorable, c7ParseUT0]
    decide
  · show parseAllIgnorable c7ExtraUT1 = true
    rw [parseAllIgnorable, c7ParseUT1]
    decide

/-- C7 (counterexample): two descriptors satisfying every condition of the
claim — agreeing name, flag, known checksum, size, byte-wise different
blobs both parsing to ignorable-only records — nevertheless fail to merge,
because their external attribute bits differ and `mergeZipFile` also
compares those. -/
theorem c7_counterexample :
    c7CexA.nonUTF8 = c7CexB.nonUTF8 ∧ c7CexA.name = c7CexB.name ∧
    c7CexA.crc32 = c7CexB.crc32 ∧ c7CexA.crc32 ≠ 0 ∧
    c7CexA.uncompressedSize64 = c7CexB.uncompressedSize64 ∧
    c7CexA.extra ≠ c7CexB.extra ∧
    parseAllIgnorable c7CexA.extra = true ∧
    parseAllIgnorable c7CexB.extra = true ∧
    isOkE (mergeZipFile c7CexA c7CexB) = false := by
  refine ⟨rfl, rfl, rfl, by decide, rfl, by decide, ?_, ?_, ?_⟩
  · show parseAllIgnorable c7ExtraUT0 = true
    rw [parseAllIgnorable, c7ParseUT0]
    decide
  · show parseAllIgnorable c7ExtraUT1 = true
    rw [parseAllIgnorable, c7ParseUT1]
    decide
  · have hslice : sliceEquals c7CexA.extra c7CexB.extra = false :=
      sliceEquals_false_of_ne (by decide)
    unfold mergeZipFile
    rw [if_neg (by decide), if_neg (by decide), if_neg (by decide),
      if_neg (by decide), if_neg (by decide), if_pos (by simp [hslice])]
    rw [show c7CexA.extra = c7ExtraUT0 from rfl,
      show c7CexB.extra = c7ExtraUT1 from rfl, c7ParseUT0, c7ParseUT1]
    decide

/-- A successful merge step leaves the accumulated team name unchanged
and requires the incoming snapshot's team name to match it: the team
check precedes that snapshot's entity merges. -/
theorem mergeStep_ok_team {acc e r : SlackExport}
    (h : mergeStep acc e = .ok r) :
    e.teamName = acc.teamName ∧ r.teamName = acc.teamName := by
  by_cases ht : acc.teamName = e.teamName
  · refine ⟨ht.symm, ?_⟩
    unfold mergeStep at h
    rw [if_neg (not_not_intro ht)] at h
    repeat' split at h
    any_goals exact Except.noConfusion h
    simp only [Except.ok.injEq] at h
    rw [← h]
  · unfold mergeStep at h
    rw [if_pos ht] at h
    exact absurd h (by simp)

/-- A successful fold requires every folded snapshot's team name to match
the accumulator's. -/
theorem mergeFold_ok_team {acc r : SlackExport} {rest : List SlackExport}
    (h : mergeFold acc rest = .ok r) :
    ∀ x ∈ rest, x.teamName = acc.teamName := by
  induction rest generalizing acc with
  | nil =>
    intro x hx
    cases hx
  | cons e tl ih =>
    intro x hx
    unfold mergeFold at h
    cases hstep : mergeStep acc e with
    | error er =>
      rw [hstep] at h
      cases h
    | ok acc' =>
      rw [hstep] at h
      obtain ⟨hteam, hacc⟩ := mergeStep_ok_team hstep
      rcases List.mem_cons.mp hx with rfl | hx'
      · exact hteam
      · exact (ih h x hx').trans hacc

/-- C5 (amended): zero snapshots fail; a list containing any snapshot
whose team name differs from the first snapshot's can never merge
successfully; and when the differing snapshot is the one being folded —
in particular for a two-snapshot list — the team-name check fires before
any of that snapshot's entity merges, returning the team-mismatch error
even when the entity collections also conflict.  (When an *earlier*
same-team snapshot already produces an entity conflict, that conflict is
returned instead — see the counterexample.) -/
theorem c5_team_mismatch_detection :
    (mergeSlackExports [] = .error .noExports) ∧
    (∀ (e : SlackExport) (rest : List SlackExport),
      (∃ x ∈ rest, x.teamName ≠ e.teamName) →
      isOkE (mergeSlackExports (e :: rest)) = false) ∧
    (∀ e1 e2 : SlackExport, e1.teamName ≠ e2.teamName →
      mergeSlackExports [e1, e2] =
        .error (.teamMismatch e1.teamName e2.teamName)) := by
  refine ⟨rfl, ?_, ?_⟩
  · rintro e rest ⟨x, hx, hne⟩
    cases hr : mergeSlackExports (e :: rest) with
    | error er => rfl
    | ok r =>
      exfalso
      cases rest with
      | nil => cases hx
      | cons e2 tl =>
        unfold mergeSlackExports at hr
        have := mergeFold_ok_team hr x hx
        exact hne (by simpa [cloneExport, cloneSlice, cloneMap] using this)
  · intro e1 e2 hne
    show mergeFold (cloneExport e1) [e2] = _
    unfold mergeFold
    have hstep : mergeStep (cloneExport e1) e2 =
        .error (.teamMismatch e1.teamName e2.teamName) := by
      have hne2 : (cloneExport e1).teamName ≠ e2.teamName := hne
      unfold mergeStep
      rw [if_pos hne2]
      rfl
    rw [hstep]

/-- Witness for C5: two concrete snapshots with different team names and
conflicting channel collections produce the team-mismatch error, not the
channel conflict. -/
theorem c5_team_mismatch_detection_witness :
    mergeSlackExports [c5WitA, c5WitB] =
      .error (.teamMismatch "alpha" "beta") :=
  c5_team_mismatch_detection.2.2 c5WitA c5WitB (by decide)

/-- C5 (counterexample): in a three-snapshot list whose third snapshot
has a different team name, a channel conflict between the first two
same-team snapshots is detected first: the merge returns the channel
conflict, not a team-mismatch error, although some snapshot's team name
differs from the first's. -/
theorem c5_counterexample :
    (∃ x ∈ [c5CexE1, c5CexE2, c5CexE3], x.teamName ≠ c5CexE1.teamName) ∧
    mergeSlackExports [c5CexE1, c5CexE2, c5CexE3] =
      .error (.channelNameConflict "one" "two") := by
  constructor
  · exact ⟨c5CexE3, by simp, by decide⟩
  · rfl

/-- Unfolding equation of `lookupA` on a non-empty map. -/
theorem lookupA_cons {α : Type} (k' : String) (v : α)
    (rest : List (String × α)) (k : String) :
    lookupA ((k', v) :: rest) k =
      if k' = k then some v else lookupA rest k := rfl

/-- Looking a key up past a map that does not contain it. -/
theorem lookupA_append {α : Type} {m m2 : List (String × α)} {k : String}
    (h : lookupA m k = none) : lookupA (m ++ m2) k = lookupA m2 k := by
  induction m with
  | nil => rfl
  | cons p rest ih =>
    obtain ⟨k', v⟩ := p
    rw [lookupA_cons] at h
    rw [List.cons_append, lookupA_cons]
    split_ifs at h ⊢ with hk
    all_goals first
    | exact Option.noConfusion h
    | exact ih h

/-- Inserting an item whose key is absent appends it. -/
theorem insertItem_of_lookup_none {α : Type}
    (merge : α → α → Except MergeError α) {m : List (String × α)}
    {key : String} (item : α) (h : lookupA m key = none) :
    insertItem merge m key item = .ok (m ++ [(key, item)]) := by
  induction m with
  | nil => rfl
  | cons p rest ih =>
    obtain ⟨k', v⟩ := p
    rw [lookupA_cons] at h
    unfold insertItem
    split_ifs at h ⊢ with hk
    all_goals first
    | exact Option.noConfusion h
    | (rw [ih h]; try rfl)

/-- Inserting an item onto an identical existing entry whose self-merge
is the identity leaves the map unchanged. -/
theorem insertItem_of_lookup_self {α : Type}
    {merge : α → α → Except MergeError α} {m : List (String × α)}
    {key : String} {item : α} (h : lookupA m key = some item)
    (hm : merge item item = .ok item) :
    insertItem merge m key item = .ok m := by
  induction m with
  | nil => cases h
  | cons p rest ih =>
    obtain ⟨k', v⟩ := p
    rw [lookupA_cons] at h
    unfold insertItem
    split_ifs at h ⊢ with hk
    · have hv : v = item := by injection h
      subst hv
      rw [hm]
    · rw [ih h]
      try rfl

/-- Folding keyed items whose keys are fresh and pairwise distinct
appends them in order. -/
theorem mergePairs_of_fresh {α : Type}
    (merge : α → α → Except MergeError α) :
    ∀ (ps m : List (String × α)),
    (∀ p ∈ ps, lookupA m p.1 = none) → (ps.map Prod.fst).Nodup →
    mergePairs merge m ps = .ok (m ++ ps) := by
  intro ps
  induction ps with
  | nil =>
    intro m _ _
    simp [mergePairs]
  | cons p rest ih =>
    intro m hfresh hnd
    obtain ⟨k, x⟩ := p
    have hf : lookupA m k = none := hfresh (k, x) (by simp)
    have hfresh' : ∀ q ∈ rest, lookupA (m ++ [(k, x)]) q.1 = none := by
      intro q hq
      rw [lookupA_append (hfresh q (by simp [hq]))]
      have hkq : k ≠ q.1 := by
        simp only [List.map_cons, List.nodup_cons] at hnd
        intro hkq
        exact hnd.1 (hkq ▸ List.mem_map_of_mem Prod.fst hq)
      simp [lookupA, hkq]
    have hnd' : (rest.map Prod.fst).Nodup := by
      simp only [List.map_cons, List.nodup_cons] at hnd
      exact hnd.2
    unfold mergePairs
    simp only [insertItem_of_lookup_none merge x hf,
      ih (m ++ [(k, x)]) hfresh' hnd', List.append_assoc,
      List.singleton_append]

/-- Folding keyed items that already sit in the map (with identity
self-merges) leaves the map unchanged. -/
theorem mergePairs_of_self {α : Type}
    {merge : α → α → Except MergeError α} {m : List (String × α)} :
    ∀ ps : List (String × α),
    (∀ p ∈ ps, lookupA m p.1 = some p.2 ∧ merge p.2 p.2 = .ok p.2) →
    mergePairs merge m ps = .ok m := by
  intro ps
  induction ps with
  | nil => intro _; simp [mergePairs]
  | cons p rest ih =>
    intro h
    obtain ⟨k, x⟩ := p
    unfold mergePairs
    obtain ⟨hl, hm⟩ := h (k, x) (by simp)
    rw [insertItem_of_lookup_self hl hm]
    exact ih fun q hq => h q (by simp [hq])

/-- In a map with pairwise-distinct keys, every entry is found by its own
key. -/
theorem lookupA_self_of_nodup {α : Type} :
    ∀ (m : List (String × α)) (p : String × α),
    (m.map Prod.fst).Nodup → p ∈ m → lookupA m p.1 = some p.2 := by
  intro m
  induction m with
  | nil =>
    intro p _ hp
    cases hp
  | cons q rest ih =>
    intro p hnd hp
    obtain ⟨k', v⟩ := q
    simp only [List.map_cons, List.nodup_cons] at hnd
    rcases List.mem_cons.mp hp with rfl | hp'
    · simp [lookupA]
    · have hk : k' ≠ p.1 := by
        intro hk
        exact hnd.1 (hk ▸ List.mem_map_of_mem Prod.fst hp')
      unfold lookupA
      rw [if_neg hk]
      exact ih p hnd.2 hp'

/-- The keys of `pairsOf` are the identities of the slice. -/
theorem pairsOf_map_fst {α : Type} (idf : α → String) (xs : List α) :
    (pairsOf idf xs).map Prod.fst = xs.map idf := by
  simp [pairsOf, Function.comp]

/-- The values of `pairsOf` are the slice itself. -/
theorem pairsOf_map_snd {α : Type} (idf : α → String) (xs : List α) :
    (pairsOf idf xs).map Prod.snd = xs := by
  simp [pairsOf, Function.comp_def]

/-- Applying `mergeSlicesWith` to two copies of a slice with
pairwise-distinct identities and identity self-merges returns the slice
unchanged, in order. -/
theorem mergeSlicesWith_self {α : Type} (xs : List α) (idf : α → String)
    (merge : α → α → Except MergeError α)
    (hnd : (xs.map idf).Nodup) (hm : ∀ x ∈ xs, merge x x = .ok x) :
    mergeSlicesWith xs xs idf merge = .ok xs := by
  have hpass1 : mergePairs merge [] (pairsOf idf xs) = .ok (pairsOf idf xs) := by
    have := mergePairs_of_fresh merge (pairsOf idf xs) []
      (fun p _ => rfl) (by rw [pairsOf_map_fst]; exact hnd)
    simpa using this
  have hpass2 : mergePairs merge (pairsOf idf xs) (pairsOf idf xs) =
      .ok (pairsOf idf xs) := by
    apply mergePairs_of_self
    intro p hp
    obtain ⟨x, hx, rfl⟩ := List.mem_map.mp hp
    constructor
    · exact lookupA_self_of_nodup (pairsOf idf xs) (idf x, x)
        (by rw [pairsOf_map_fst]; exact hnd) hp
    · exact hm x hx
  unfold mergeSlicesWith
  simp only [hpass1, hpass2, pairsOf_map_snd]

/-- Applying `mergeMapsWith` to two copies of a map with pairwise-distinct
keys and identity self-merges returns the map unchanged. -/
theorem mergeMapsWith_self {α : Type} (m : List (String × α))
    (merge : α → α → Except MergeError α)
    (hnd : (m.map Prod.fst).Nodup)
    (hm : ∀ p ∈ m, merge p.2 p.2 = .ok p.2) :
    mergeMapsWith m m merge = .ok m := by
  unfold mergeMapsWith cloneMap
  apply mergePairs_of_self
  intro p hp
  exact ⟨lookupA_self_of_nodup m p hnd hp, hm p hp⟩

/-- A channel always merges with itself. -/
theorem mergeChannel_self (c : SlackChannel) : mergeChannel c c = .ok c := by
  simp [mergeChannel]

/-- A user always merges with itself. -/
theorem mergeUser_self (u : SlackUser) : mergeUser u u = .ok u := by
  simp [mergeUser]

/-- All non-original fields of a post equal themselves. -/
theorem postsEqualExceptOriginal_self (p : SlackPost) :
    postsEqualExceptOriginal p p = true := by
  simp [postsEqualExceptOriginal]

/-- A post whose raw-original capture parses merges with itself. -/
theorem mergePost_self {p : SlackPost} (h : p.original.isValid = true) :
    mergePost p p = .ok p := by
  unfold mergePost
  rw [postsEqualExceptOriginal_self]
  cases ho : p.original with
  | invalid s =>
    rw [ho] at h
    cases h
  | valid fa =>
    simp [postOriginalEquivalent]

/-- An upload with a known checksum merges with itself. -/
theorem mergeZipFile_self {z : ZipFile} (h : z.crc32 ≠ 0) :
    mergeZipFile z z = .ok z := by
  unfold mergeZipFile
  rw [if_neg (by simp), if_neg (by simp), if_neg (by simp [h]),
    if_neg (by simp), if_neg (by simp)]
  rw [sliceEquals_self]
  simp [mergeZipFileTail]

/-- A channel slice with distinct ids merges with itself unchanged. -/
theorem mergeChannels_self {xs : List SlackChannel}
    (hnd : (xs.map fun c => c.id).Nodup) :
    mergeChannels xs xs = .ok xs :=
  mergeSlicesWith_self xs _ mergeChannel hnd fun c _ => mergeChannel_self c

/-- A user slice with distinct ids merges with itself unchanged. -/
theorem mergeUsers_self {xs : List SlackUser}
    (hnd : (xs.map fun u => u.id).Nodup) :
    mergeUsers xs xs = .ok xs :=
  mergeSlicesWith_self xs _ mergeUser hnd fun u _ => mergeUser_self u

/-- A post slice with distinct timestamps and parseable captures merges
with itself unchanged. -/
theorem mergePostSlice_self {ps : List SlackPost}
    (h : postSliceIdemPre ps = true) : mergePostSlice ps ps = .ok ps := by
  simp only [postSliceIdemPre, Bool.and_eq_true, decide_eq_true_eq,
    List.all_eq_true] at h
  exact mergeSlicesWith_self ps _ mergePost h.1
    fun p hp => mergePost_self (h.2 p hp)

/-- The posts map of a well-formed export merges with itself unchanged. -/
theorem mergePosts_self {m : List (String × List SlackPost)}
    (hnd : (m.map Prod.fst).Nodup)
    (h : ∀ p ∈ m, postSliceIdemPre p.2 = true) :
    mergePosts m m = .ok m :=
  mergeMapsWith_self m mergePostSlice hnd
    fun p hp => mergePostSlice_self (h p hp)

/-- The uploads map of an export with known checksums merges with itself
unchanged. -/
theorem mergeUploads_self {m : List (String × ZipFile)}
    (hnd : (m.map Prod.fst).Nodup) (h : ∀ p ∈ m, p.2.crc32 ≠ 0) :
    mergeUploads m m = .ok m :=
  mergeMapsWith_self m mergeZipFile hnd
    fun p hp => mergeZipFile_self (h p hp)

/-- One merge iteration of an export against an identical copy is the
identity when the idempotence preconditions hold. -/
theorem mergeStep_self {e : SlackExport} (h : exportIdemPre e = true) :
    mergeStep e e = .ok e := by
  simp only [exportIdemPre, Bool.and_eq_true, decide_eq_true_eq,
    List.all_eq_true] at h
  obtain ⟨⟨⟨⟨⟨⟨⟨⟨⟨h1, h2⟩, h3⟩, h4⟩, h5⟩, h6⟩, h7⟩, h8⟩, h9⟩, h10⟩ := h
  unfold mergeStep
  rw [if_neg (by simp)]
  rw [mergeChannels_self h1, mergeChannels_self h2, mergeChannels_self h3,
    mergeChannels_self h4, mergeChannels_self h5, mergeUsers_self h6,
    mergePosts_self h7 h8, mergeUploads_self h9
      (fun p hp => by simpa using h10 p hp)]

/-- Folding any number of identical copies after the first is the
identity. -/
theorem mergeFold_replicate {e : SlackExport} (h : exportIdemPre e = true) :
    ∀ m : Nat, mergeFold e (List.replicate m e) = .ok e := by
  intro m
  induction m with
  | zero => rfl
  | succ m ih =>
    rw [List.replicate_succ]
    unfold mergeFold
    rw [mergeStep_self h]
    exact ih

/-- C2 (amended): merging a one-export list returns that export
unchanged; and merging two or more identical copies of an export whose
collections have pairwise-distinct identity keys, whose posts' captures
all parse, and whose uploads' checksums are all known, returns a result
structurally equal to one copy (element order included, reading Go's
unordered map iteration as insertion-ordered).  Without those
preconditions the law fails: duplicate keys collapse and unparseable
captures or zero checksums abort the merge. -/
theorem c2_merge_identity_idempotent (e : SlackExport) :
    mergeSlackExports [e] = .ok e ∧
    (∀ n, 2 ≤ n → exportIdemPre e = true →
      mergeSlackExports (List.replicate n e) = .ok e) := by
  refine ⟨rfl, ?_⟩
  intro n hn h
  obtain ⟨m, rfl⟩ : ∃ m, n = m + 2 := ⟨n - 2, by omega⟩
  show mergeFold (cloneExport e) (e :: List.replicate m e) = .ok e
  rw [show cloneExport e = e from rfl]
  unfold mergeFold
  rw [mergeStep_self h]
  exact mergeFold_replicate h m

/-- Witness for C2: a concrete well-formed export with one entry per
collection is returned unchanged when merged with a copy of itself. -/
theorem c2_merge_identity_idempotent_witness :
    mergeSlackExports (List.replicate 2 demoExport) = .ok demoExport :=
  (c2_merge_identity_idempotent demoExport).2 2 (by decide) (by decide)

/-- C2 (counterexample): an export whose channel list contains the same
channel twice merges with an identical copy of itself into a one-channel
export — not a result structurally equal to the copy.  Duplicate
identity keys are collapsed even within a single input. -/
theorem c2_counterexample :
    mergeSlackExports [demoExportDup, demoExportDup] ≠ .ok demoExportDup := by
  intro hcontra
  have h1 : (mergeSlackExports [demoExportDup, demoExportDup]).map
      (fun ex => ex.channels.length) = .ok 1 := rfl
  rw [hcontra] at h1
  simp [Except.map, demoExportDup] at h1

/-- Bumping the candidate past a used timestamp strictly shrinks the
pending measure. -/
theorem pending_decreases {used : Finset Int} {t : Int} (ht : t ∈ used) :
    pending used (t + 1) < pending used t := by
  have htf : t ∈ Finset.filter (fun x => t ≤ x) used :=
    Finset.mem_filter.mpr ⟨ht, le_refl t⟩
  have hsub : Finset.filter (fun x => t + 1 ≤ x) used ⊆
      (Finset.filter (fun x => t ≤ x) used).erase t := by
    intro x hx
    simp only [Finset.mem_filter] at hx
    exact Finset.mem_erase.mpr ⟨by omega, Finset.mem_filter.mpr ⟨hx.1, by omega⟩⟩
  have hcard : (Finset.filter (fun x => t + 1 ≤ x) used).card ≤
      ((Finset.filter (fun x => t ≤ x) used).erase t).card :=
    Finset.card_le_card hsub
  have herase : ((Finset.filter (fun x => t ≤ x) used).erase t).card =
      (Finset.filter (fun x => t ≤ x) used).card - 1 :=
    Finset.card_erase_of_mem htf
  have hpos : 0 < (Finset.filter (fun x => t ≤ x) used).card :=
    Finset.card_pos.mpr ⟨t, htf⟩
  show (Finset.filter (fun x => t + 1 ≤ x) used).card <
    (Finset.filter (fun x => t ≤ x) used).card
  omega

/-- The collision loop, given enough fuel, lands outside the used set. -/
theorem nextFreeFuel_not_mem :
    ∀ (n : Nat) (used : Finset Int) (t : Int),
    pending used t < n → nextFreeFuel n used t ∉ used := by
  intro n
  induction n with
  | zero =>
    intro used t h
    exact absurd h (Nat.not_lt_zero _)
  | succ n ih =>
    intro used t h
    unfold nextFreeFuel
    split_ifs with ht
    · apply ih
      have := pending_decreases (t := t) ht
      omega
    · exact ht

/-- The timestamp assigned by the collision-resolution loop of
`AddPostToThreads` is not yet in the channel-scoped used set. -/
theorem nextFree_not_mem (used : Finset Int) (t : Int) :
    nextFree used t ∉ used := by
  apply nextFreeFuel_not_mem
  have hle : pending used t ≤ used.card :=
    Finset.card_le_card (Finset.filter_subset _ _)
  omega

/-- Creation timestamps distribute over post-list concatenation. -/
theorem allCreateAtsList_append (l1 l2 : List IntermediatePost) :
    allCreateAtsList (l1 ++ l2) =
      allCreateAtsList l1 ++ allCreateAtsList l2 := by
  induction l1 with
  | nil => rfl
  | cons p ps ih => simp [allCreateAtsList, ih]

/-- The echo step `postWithMembers` does not touch the reply list. -/
theorem postWithMembers_replies (post : IntermediatePost)
    (channel : IntermediateChannel) :
    (postWithMembers post channel).replies = post.replies := by
  unfold postWithMembers
  cases post
  split_ifs <;> rfl

/-- A post without replies carries exactly its own (rewritten) creation
timestamp. -/
theorem allCreateAts_withCreateAt {p : IntermediatePost}
    (hrep : p.replies = []) (t : Int) :
    (p.withCreateAt t).allCreateAts = [t] := by
  cases p with
  | mk u c m t' rs dd cm =>
    simp only [IntermediatePost.replies] at hrep
    subst hrep
    rfl

/-- Appending a reply to a root appends the reply's timestamps to the
root's. -/
theorem withReplies_append_allCreateAts (root q : IntermediatePost) :
    (root.withReplies (root.replies ++ [q])).allCreateAts =
      root.allCreateAts ++ q.allCreateAts := by
  cases root with
  | mk u c m t rs d cm =>
    simp [IntermediatePost.withReplies, IntermediatePost.replies,
      IntermediatePost.allCreateAts, allCreateAtsList_append, allCreateAtsList]

/-- Unfolding equation of `threadsCreateAts` on a non-empty map. -/
theorem threadsCreateAts_cons (k : String) (p : IntermediatePost)
    (rest : List (String × IntermediatePost)) :
    threadsCreateAts ((k, p) :: rest) =
      p.allCreateAts ++ threadsCreateAts rest := rfl

/-- The timestamps of a root found in the threads map are among the map's
timestamps. -/
theorem mem_threadsCreateAts_of_lookup
    {th : List (String × IntermediatePost)} {k : String}
    {root : IntermediatePost} (h : lookupA th k = some root) :
    ∀ x ∈ root.allCreateAts, x ∈ threadsCreateAts th := by
  induction th with
  | nil => cases h
  | cons q rest ih =>
    obtain ⟨k', p'⟩ := q
    rw [lookupA_cons] at h
    intro x hx
    rw [threadsCreateAts_cons]
    by_cases hk : k' = k
    · rw [if_pos hk] at h
      have hpr : p' = root := by injection h
      subst hpr
      exact List.mem_append_left _ hx
    · rw [if_neg hk] at h
      exact List.mem_append_right _ (ih h x hx)

/-- The timestamps of a root found in a duplicate-free threads map are
themselves duplicate-free. -/
theorem lookup_allCreateAts_nodup
    {th : List (String × IntermediatePost)} {k : String}
    {root : IntermediatePost} (h : lookupA th k = some root)
    (hnd : (threadsCreateAts th).Nodup) : root.allCreateAts.Nodup := by
  induction th with
  | nil => cases h
  | cons q rest ih =>
    obtain ⟨k', p'⟩ := q
    rw [lookupA_cons] at h
    rw [threadsCreateAts_cons, List.nodup_append] at hnd
    by_cases hk : k' = k
    · rw [if_pos hk] at h
      have hpr : p' = root := by injection h
      subst hpr
      exact hnd.1
    · rw [if_neg hk] at h
      exact ih h hnd.2.1

/-- A map update introduces no timestamps beyond the old map's and the
new value's. -/
theorem mem_setA_threadsCreateAts {v : IntermediatePost} {x : Int} :
    ∀ {th : List (String × IntermediatePost)} {k : String},
    x ∈ threadsCreateAts (setA th k v) →
    x ∈ threadsCreateAts th ∨ x ∈ v.allCreateAts := by
  intro th
  induction th with
  | nil =>
    intro k h
    right
    simpa [threadsCreateAts, allCreateAtsList] using h
  | cons q rest ih =>
    intro k h
    obtain ⟨k', p'⟩ := q
    unfold setA at h
    split_ifs at h with hk
    · rw [threadsCreateAts_cons] at h
      rcases List.mem_append.mp h with hv | hr
      · right; exact hv
      · left
        rw [threadsCreateAts_cons]
        exact List.mem_append_right _ hr
    · rw [threadsCreateAts_cons] at h
      rcases List.mem_append.mp h with hp | hr
      · left
        rw [threadsCreateAts_cons]
        exact List.mem_append_left _ hp
      · rcases ih hr with h1 | h2
        · left
          rw [threadsCreateAts_cons]
          exact List.mem_append_right _ h1
        · right; exact h2

/-- A map update whose new value only reuses the replaced root's
timestamps plus one fresh timestamp preserves duplicate-freedom. -/
theorem setA_threadsCreateAts_nodup {v : IntermediatePost} {fresh : Int} :
    ∀ (th : List (String × IntermediatePost)) (k : String),
    (threadsCreateAts th).Nodup → fresh ∉ threadsCreateAts th →
    (∀ x ∈ v.allCreateAts,
      (∃ root, lookupA th k = some root ∧ x ∈ root.allCreateAts) ∨ x = fresh) →
    v.allCreateAts.Nodup →
    (threadsCreateAts (setA th k v)).Nodup := by
  intro th
  induction th with
  | nil =>
    intro k _ _ _ hvnd
    simpa [threadsCreateAts, allCreateAtsList] using hvnd
  | cons q rest ih =>
    intro k hnd hf hsub hvnd
    obtain ⟨k', p'⟩ := q
    rw [threadsCreateAts_cons] at hnd hf
    rw [List.nodup_append] at hnd
    obtain ⟨hp'nd, hrestnd, hdisj⟩ := hnd
    unfold setA
    split_ifs with hk
    · rw [threadsCreateAts_cons, List.nodup_append]
      refine ⟨hvnd, hrestnd, ?_⟩
      intro x hxv hxr
      rcases hsub x hxv with ⟨root, hlook, hxroot⟩ | rfl
      · rw [lookupA_cons, if_pos hk] at hlook
        have hpr : p' = root := by injection hlook
        subst hpr
        exact hdisj hxroot hxr
      · exact hf (List.mem_append_right _ hxr)
    · rw [threadsCreateAts_cons, List.nodup_append]
      refine ⟨hp'nd, ?_, ?_⟩
      · refine ih k hrestnd (fun hr => hf (List.mem_append_right _ hr)) ?_ hvnd
        intro x hxv
        rcases hsub x hxv with ⟨root, hlook, hxroot⟩ | rfl
        · rw [lookupA_cons, if_neg hk] at hlook
          exact Or.inl ⟨root, hlook, hxroot⟩
        · exact Or.inr rfl
      · intro x hxp hxset
        rcases mem_setA_threadsCreateAts hxset with hxr | hxv
        · exact hdisj hxp hxr
        · rcases hsub x hxv with ⟨root, hlook, hxroot⟩ | rfl
          · rw [lookupA_cons, if_neg hk] at hlook
            exact hdisj hxp (mem_threadsCreateAts_of_lookup hlook x hxroot)
          · exact hf (List.mem_append_left _ hxp)

/-- Inserting, via `threadInsert`, a reply-free post carrying one fresh timestamp
keeps all map timestamps inside the enlarged used set and keeps them
pairwise distinct. -/
theorem threadInsert_invariant (original : SlackPost)
    {q : IntermediatePost} {fresh : Int}
    (hq : q.allCreateAts = [fresh])
    {th : List (String × IntermediatePost)} {ts : Finset Int}
    (h1 : ∀ x ∈ threadsCreateAts th, x ∈ ts)
    (h2 : (threadsCreateAts th).Nodup) (hf : fresh ∉ ts) :
    (∀ x ∈ threadsCreateAts (threadInsert original q th),
      x ∈ insert fresh ts) ∧
    (threadsCreateAts (threadInsert original q th)).Nodup := by
  have hfth : fresh ∉ threadsCreateAts th := fun hmem => hf (h1 fresh hmem)
  unfold threadInsert
  split_ifs with hbr hroot
  · cases hlook : lookupA th original.threadTS with
    | none => exact ⟨fun x hx => Finset.mem_insert_of_mem (h1 x hx), h2⟩
    | some rootPost =>
      have hv : (rootPost.withReplies (rootPost.replies ++ [q])).allCreateAts =
          rootPost.allCreateAts ++ [fresh] := by
        rw [withReplies_append_allCreateAts, hq]
      constructor
      · intro x hx
        rcases mem_setA_threadsCreateAts hx with hold | hnew
        · exact Finset.mem_insert_of_mem (h1 x hold)
        · rw [hv] at hnew
          rcases List.mem_append.mp hnew with hroot' | hfr
          · exact Finset.mem_insert_of_mem
              (h1 x (mem_threadsCreateAts_of_lookup hlook x hroot'))
          · rw [List.mem_singleton.mp hfr]
            exact Finset.mem_insert_self fresh ts
      · apply setA_threadsCreateAts_nodup th original.threadTS h2 hfth
        · intro x hx
          rw [hv] at hx
          rcases List.mem_append.mp hx with hroot' | hfr
          · exact Or.inl ⟨rootPost, hlook, hroot'⟩
          · exact Or.inr (List.mem_singleton.mp hfr)
        · rw [hv, List.nodup_append]
          refine ⟨lookup_allCreateAts_nodup hlook h2, List.nodup_singleton fresh, ?_⟩
          intro x hx hx'
          rw [List.mem_singleton.mp hx'] at hx
          exact hfth (mem_threadsCreateAts_of_lookup hlook fresh hx)
  all_goals
    refine ⟨?_, ?_⟩
    · intro x hx
      rcases mem_setA_threadsCreateAts hx with hold | hnew
      · exact Finset.mem_insert_of_mem (h1 x hold)
      · rw [hq] at hnew
        rw [List.mem_singleton.mp hnew]
        exact Finset.mem_insert_self fresh ts
    · apply setA_threadsCreateAts_nodup _ _ h2 hfth
      · intro x hx
        rw [hq] at hx
        exact Or.inr (List.mem_singleton.mp hx)
      · rw [hq]
        exact List.nodup_singleton fresh

/-- One `AddPostToThreads` call preserves the channel invariant: map
timestamps stay inside the used set and pairwise distinct. -/
theorem addPostToThreads_invariant (original : SlackPost)
    (post : IntermediatePost) (channel : IntermediateChannel)
    (st : ThreadState) (hrep : post.replies = [])
    (h1 : ∀ x ∈ threadsCreateAts st.threads, x ∈ st.timestamps)
    (h2 : (threadsCreateAts st.threads).Nodup) :
    (∀ x ∈ threadsCreateAts (addPostToThreads original post channel st).threads,
      x ∈ (addPostToThreads original post channel st).timestamps) ∧
    (threadsCreateAts (addPostToThreads original post channel st).threads).Nodup := by
  have hrep1 : (postWithMembers post channel).replies = [] := by
    rw [postWithMembers_replies]
    exact hrep
  have hq : ((postWithMembers post channel).withCreateAt
      (nextFree st.timestamps (postWithMembers post channel).createAt)).allCreateAts =
      [nextFree st.timestamps (postWithMembers post channel).createAt] :=
    allCreateAts_withCreateAt hrep1 _
  exact threadInsert_invariant original hq h1 h2 (nextFree_not_mem _ _)

/-- The whole per-channel post loop preserves the invariant. -/
theorem processChannelPosts_inv (resolve : String → String)
    (channel : IntermediateChannel) :
    ∀ (posts : List SlackPost) (st : ThreadState),
    ((∀ x ∈ threadsCreateAts st.threads, x ∈ st.timestamps) ∧
      (threadsCreateAts st.threads).Nodup) →
    ((∀ x ∈ threadsCreateAts
        (posts.foldl (fun s p => createAndAddPostToThreads resolve p channel s)
          st).threads,
      x ∈ (posts.foldl (fun s p => createAndAddPostToThreads resolve p channel s)
          st).timestamps) ∧
      (threadsCreateAts
        (posts.foldl (fun s p => createAndAddPostToThreads resolve p channel s)
          st).threads).Nodup) := by
  intro posts
  induction posts with
  | nil =>
    intro st h
    exact h
  | cons p ps ih =>
    intro st h
    rw [List.foldl_cons]
    apply ih
    unfold createAndAddPostToThreads
    exact addPostToThreads_invariant p _ channel st rfl h.1 h.2

/-- C1 (amended): every channel's emitted intermediate posts — thread
roots and replies alike — carry pairwise-distinct creation timestamps:
`AddPostToThreads` bumps each post's `CreateAt` past every already-used
value before recording it.  Two source posts with *distinct* timestamp
strings rounding to the same millisecond both appear with adjacent
timestamps, as root/root or as root/reply.  (Two posts sharing one
timestamp string collide in the threads map and only one survives — see
the counterexample.) -/
theorem c1_thread_timestamp_uniqueness :
    (∀ (resolve : String → String) (channel : IntermediateChannel)
        (posts : List SlackPost),
      (threadsCreateAts (processChannelPosts resolve channel posts).threads).Nodup) ∧
    (threadsCreateAts
        (processChannelPosts id demoChannelOpen [c1P1, c1P2]).threads =
      [5000, 5001]) ∧
    ((processChannelPosts id demoChannelOpen [c1Root, c1Reply]).threads.map
        (fun kv => (kv.2.createAt, kv.2.replies.map IntermediatePost.createAt)) =
      [(6000, [6001])]) := by
  refine ⟨?_, ?_, ?_⟩
  · intro resolve channel posts
    refine (processChannelPosts_inv resolve channel posts
      { threads := [], timestamps := ∅ } ⟨?_, ?_⟩).2
    · intro x hx
      simp [threadsCreateAts, allCreateAtsList] at hx
    · simp [threadsCreateAts, allCreateAtsList]
  · decide
  · decide

/-- C1 (counterexample): two distinct source posts sharing one timestamp
string — which trivially round to the same millisecond — do NOT both
appear in the output: both are unthreaded roots, so the second overwrites
the first in the threads map and only one post is emitted. -/
theorem c1_counterexample :
    c1Dup1.timeStamp = c1Dup2.timeStamp ∧
    c1Dup1.threadTS = "" ∧ c1Dup2.threadTS = "" ∧
    ((processChannelPosts id demoChannelOpen [c1Dup1, c1Dup2]).threads.map
        (fun kv => kv.2.message)) = ["overwrites"] := by
  decide


